import Mathlib

/-!
Verification of the wanderer-sde transformation pipeline (Go package
`internal/transformer`, plus the security classifier from `internal/writer`).

Modelling conventions for the shallow embedding:

* `float64` is modelled as `ℚ`.  Every operation the embedded code performs on
  floats (comparison, min/max selection, `math.Trunc`, `math.Ceil`,
  `math.Floor`, `math.Round`, `math.Abs`, multiplication and division by 10 and
  100) is modelled by the exact rational counterpart.
* `int64` is modelled as `ℤ`, `int` counts as `ℕ`, `string` as `String`.
* Go maps (`map[int64]T`, `map[string]string`) are modelled as association
  lists `List (key × T)`; the list order stands for the (unspecified) map
  iteration order, so theorems quantify over all orders.  Map construction by
  repeated assignment is modelled by a left fold in which a later entry
  overrides an earlier one, matching Go map semantics.
* `sort.Slice` receives a strict `less` function and produces some permutation
  that is pairwise ordered by `fun a b => less b a = false`; it is modelled by
  the insertion sort `sortSlice` below, which satisfies exactly that contract.
* Nullable pointers `*int64` are modelled at two levels.  For the functional
  claims the field is a plain optional value `Option ℤ`.  For the aliasing
  claims (`InheritFactionIDs` copies the region value into a fresh cell, and
  the pipeline never writes through a pointer shared with its input) the
  faction field is an `Option Nat` address into an explicit `Heap` of `int64`
  cells, and allocation/read/write are explicit.  The location structures are
  therefore generic in the type `φ` of the faction field.
-/

/-- Exact-rational model of Go `math.Trunc` (round toward zero to an integer). -/
def mathTrunc (q : ℚ) : ℚ := if 0 ≤ q then (⌊q⌋ : ℚ) else (⌈q⌉ : ℚ)

/-- Exact-rational model of Go `math.Round` (round half away from zero). -/
def mathRound (q : ℚ) : ℚ := if 0 ≤ q then (⌊q + 1/2⌋ : ℚ) else (⌈q - 1/2⌉ : ℚ)

/-- `TruncateToTwoDigits` from `internal/writer`: `math.Trunc(value*100) / 100`. -/
def TruncateToTwoDigits (value : ℚ) : ℚ := mathTrunc (value * 100) / 100

/-- `GetTrueSecurity` from `internal/writer`: the EVE display-security
classifier.  Mirrors the Go source line by line. -/
def GetTrueSecurity (security : ℚ) : ℚ :=
  if 0 < security ∧ security < 5/100 then
    (⌈security * 10⌉ : ℚ) / 10
  else
    let truncated := TruncateToTwoDigits security
    let truncatedOneDecimal := mathTrunc (truncated * 10) / 10
    let diff := |mathRound ((truncated - truncatedOneDecimal) * 100)| / 100
    if diff < 5/100 then truncatedOneDecimal
    else if 0 ≤ security then (⌈truncated * 10⌉ : ℚ) / 10
    else (⌊truncated * 10⌋ : ℚ) / 10

/-- `models.SolarSystem`, generic in the representation `φ` of the
`FactionID *int64` field (`Option ℤ` for the value model, `Option Nat` —
a heap address — for the pointer model).  `SunTypeID *int64` is kept as a
plain optional value since no claim concerns its identity. -/
structure SolarSystemG (φ : Type) where
  regionID : ℤ
  constellationID : ℤ
  solarSystemID : ℤ
  solarSystemName : String
  x : ℚ
  y : ℚ
  z : ℚ
  xMin : ℚ
  xMax : ℚ
  yMin : ℚ
  yMax : ℚ
  zMin : ℚ
  zMax : ℚ
  luminosity : ℚ
  border : Bool
  fringe : Bool
  corridor : Bool
  hub : Bool
  international : Bool
  regional : Bool
  constellation : String
  security : ℚ
  factionID : φ
  radius : ℚ
  sunTypeID : Option ℤ
  securityClass : String
deriving DecidableEq

/-- `models.Region`, generic in the faction-field representation. -/
structure RegionG (φ : Type) where
  regionID : ℤ
  regionName : String
  x : ℚ
  y : ℚ
  z : ℚ
  xMin : ℚ
  xMax : ℚ
  yMin : ℚ
  yMax : ℚ
  zMin : ℚ
  zMax : ℚ
  factionID : φ
  nebula : ℤ
  radius : ℚ
deriving DecidableEq

/-- `models.Constellation`, generic in the faction-field representation. -/
structure ConstellationG (φ : Type) where
  regionID : ℤ
  constellationID : ℤ
  constellationName : String
  x : ℚ
  y : ℚ
  z : ℚ
  xMin : ℚ
  xMax : ℚ
  yMin : ℚ
  yMax : ℚ
  zMin : ℚ
  zMax : ℚ
  factionID : φ
  radius : ℚ
deriving DecidableEq

/-- Value-level solar system: `FactionID` is an optional integer. -/
abbrev SolarSystem := SolarSystemG (Option ℤ)

/-- Value-level region. -/
abbrev Region := RegionG (Option ℤ)

/-- Value-level constellation. -/
abbrev Constellation := ConstellationG (Option ℤ)

/-- Pointer-level solar system: `FactionID` is an optional heap address. -/
abbrev SolarSystemP := SolarSystemG (Option Nat)

/-- Pointer-level region. -/
abbrev RegionP := RegionG (Option Nat)

/-- Pointer-level constellation. -/
abbrev ConstellationP := ConstellationG (Option Nat)

/-- `models.WormholeClassLocation`. -/
structure WormholeClassLocation where
  locationID : ℤ
  wormholeClassID : ℤ
deriving DecidableEq

/-- `models.InvType`. -/
structure InvType where
  typeID : ℤ
  groupID : ℤ
  typeName : String
  description : String
  mass : ℚ
  volume : ℚ
  capacity : ℚ
  portionSize : ℤ
  raceID : Option ℤ
  basePrice : ℚ
  published : Bool
  marketGroupID : Option ℤ
  iconID : Option ℤ
  soundID : Option ℤ
  graphicID : Option ℤ
deriving DecidableEq

/-- `models.InvGroup`. -/
structure InvGroup where
  groupID : ℤ
  categoryID : ℤ
  groupName : String
  iconID : Option ℤ
  useBasePrice : Bool
  anchored : Bool
  anchorable : Bool
  fittableNonSingleton : Bool
  published : Bool
deriving DecidableEq

/-- `models.SystemJump`. -/
structure SystemJump where
  fromRegionID : ℤ
  fromConstellationID : ℤ
  fromSolarSystemID : ℤ
  toSolarSystemID : ℤ
  toConstellationID : ℤ
  toRegionID : ℤ
deriving DecidableEq

/-- `models.NPCStation`. -/
structure NPCStation where
  stationID : ℤ
  solarSystemID : ℤ
  ownerID : ℤ
  ownerName : String
  typeID : ℤ
deriving DecidableEq

/-- `models.SDEType` (multi-language name maps as association lists). -/
structure SDEType where
  groupID : ℤ
  name : List (String × String)
  description : List (String × String)
  mass : ℚ
  volume : ℚ
  capacity : ℚ
  portionSize : ℤ
  published : Bool
  marketGroupID : ℤ
  graphicID : ℤ
  iconID : ℤ
  soundID : ℤ
  basePrice : ℚ
  raceID : ℤ
  sofFactionName : String
deriving DecidableEq

/-- `models.SDEGroup`. -/
structure SDEGroup where
  categoryID : ℤ
  name : List (String × String)
  published : Bool
  anchorable : Bool
  anchored : Bool
  fittableNonSingleton : Bool
  useBasePrice : Bool
  iconID : ℤ
deriving DecidableEq

/-- `models.SDECategory`. -/
structure SDECategory where
  name : List (String × String)
  published : Bool
  iconID : ℤ
deriving DecidableEq

/-- `models.SDENPCStation` (the position sub-record inlined as three fields). -/
structure SDENPCStation where
  celestialIndex : ℤ
  operationID : ℤ
  orbitID : ℤ
  orbitIndex : ℤ
  ownerID : ℤ
  positionX : ℚ
  positionY : ℚ
  positionZ : ℚ
  reprocessingEfficiency : ℚ
  reprocessingHangarFlag : ℤ
  reprocessingStationsTake : ℚ
  solarSystemID : ℤ
  typeID : ℤ
  useOperationName : Bool
deriving DecidableEq

/-- `models.SDENPCCorporation`. -/
structure SDENPCCorporation where
  name : List (String × String)
  stationID : ℤ
  deleted : Bool
deriving DecidableEq

/-- `models.UniverseData` (value level). -/
structure UniverseData where
  regions : List Region
  constellations : List Constellation
  solarSystems : List SolarSystem
deriving DecidableEq

/-- `models.ConvertedData` (value level). -/
structure ConvertedData where
  Universe : UniverseData
  invTypes : List InvType
  invGroups : List InvGroup
  wormholeClasses : List WormholeClassLocation
  systemJumps : List SystemJump
  npcStations : List NPCStation
deriving DecidableEq

/-- `models.ValidationResult`. -/
structure ValidationResult where
  solarSystems : ℕ
  regions : ℕ
  constellations : ℕ
  invTypes : ℕ
  invGroups : ℕ
  systemJumps : ℕ
  wormholeClasses : ℕ
  npcStations : ℕ
  errors : List String
  warnings : List String
deriving DecidableEq

/-- `(*ValidationResult).IsValid`: `len(v.Errors) == 0`. -/
def ValidationResult.IsValid (v : ValidationResult) : Bool := v.errors.length == 0

/-- `parser.ParseResult`: the transformer's input. -/
structure ParseResult where
  regions : List Region
  constellations : List Constellation
  solarSystems : List SolarSystem
  types : List (ℤ × SDEType)
  groups : List (ℤ × SDEGroup)
  categories : List (ℤ × SDECategory)
  wormholeClasses : List WormholeClassLocation
  systemJumps : List SystemJump
  npcStations : List (ℤ × SDENPCStation)
  npcCorporations : List (ℤ × SDENPCCorporation)
deriving DecidableEq

/-- One insertion step of the `sort.Slice` model: `a` goes in front of the
first element `b` with `less b a = false`. -/
def sortSliceInsert (less : α → α → Bool) (a : α) : List α → List α
  | [] => [a]
  | b :: l => if less b a then b :: sortSliceInsert less a l else a :: b :: l

/-- Model of Go `sort.Slice` with strict comparison `less`: an insertion sort
producing a permutation that is pairwise ordered by `fun a b => less b a = false`,
which is all `sort.Slice` guarantees (it is not stable). -/
def sortSlice (less : α → α → Bool) : List α → List α
  | [] => []
  | b :: l => sortSliceInsert less b (sortSlice less l)

/-- `ShipCategoryID` from `internal/transformer/filters.go`. -/
def ShipCategoryID : ℤ := 6

/-- `transformSolarSystems`: copy the slice and sort by `SolarSystemID`
(the records themselves, including the raw `Security`, are not altered). -/
def transformSolarSystems (systems : List (SolarSystemG φ)) : List (SolarSystemG φ) :=
  sortSlice (fun a b => decide (a.solarSystemID < b.solarSystemID)) systems

/-- `sortRegions`: copy the slice and sort by `RegionID`. -/
def sortRegions (regions : List (RegionG φ)) : List (RegionG φ) :=
  sortSlice (fun a b => decide (a.regionID < b.regionID)) regions

/-- `sortConstellations`: copy the slice and sort by `ConstellationID`. -/
def sortConstellations (constellations : List (ConstellationG φ)) : List (ConstellationG φ) :=
  sortSlice (fun a b => decide (a.constellationID < b.constellationID)) constellations

/-- `getLocalizedName`: map lookup returning `""` on a missing language key
(the verbose warning log is dropped). -/
def getLocalizedName (names : List (String × String)) (lang : String) : String :=
  match names.lookup lang with
  | some name => name
  | none => ""

/-- `sortWormholeClasses`: sort by `LocationID`. -/
def sortWormholeClasses (classes : List WormholeClassLocation) : List WormholeClassLocation :=
  sortSlice (fun a b => decide (a.locationID < b.locationID)) classes

/-- The ship-group-ID set of `transformShipTypes`: `groupID`s whose group has
`CategoryID == ShipCategoryID`.  (Built in Go as a `map[int64]bool` whose
entries are only ever set to `true`, hence an existential over the entries.) -/
def shipGroupIDs (groups : List (ℤ × SDEGroup)) (gid : ℤ) : Bool :=
  groups.any (fun p => decide (p.1 = gid ∧ p.2.categoryID = ShipCategoryID))

/-- `transformShipTypes`: keep the types whose group is a ship group, resolve
the English name, sort by `TypeID`.  Unset Go struct fields are zero values. -/
def transformShipTypes (types : List (ℤ × SDEType)) (groups : List (ℤ × SDEGroup)) :
    List InvType :=
  sortSlice (fun a b => decide (a.typeID < b.typeID))
    (types.filterMap (fun p =>
      if shipGroupIDs groups p.2.groupID then
        some { typeID := p.1
               groupID := p.2.groupID
               typeName := getLocalizedName p.2.name ("en")
               description := ""
               mass := p.2.mass
               volume := p.2.volume
               capacity := p.2.capacity
               portionSize := 0
               raceID := none
               basePrice := 0
               published := p.2.published
               marketGroupID := none
               iconID := none
               soundID := none
               graphicID := none }
      else none))

/-- `transformShipGroups`: keep the groups with `CategoryID == ShipCategoryID`,
resolve the English name, sort by `GroupID`. -/
def transformShipGroups (groups : List (ℤ × SDEGroup)) : List InvGroup :=
  sortSlice (fun a b => decide (a.groupID < b.groupID))
    (groups.filterMap (fun p =>
      if p.2.categoryID = ShipCategoryID then
        some { groupID := p.1
               categoryID := p.2.categoryID
               groupName := getLocalizedName p.2.name ("en")
               iconID := none
               useBasePrice := false
               anchored := false
               anchorable := false
               fittableNonSingleton := false
               published := false }
      else none))

/-- `transformNPCStations`: resolve the owner name from the corporation table
(empty when the owner is unknown), sort by `StationID`. -/
def transformNPCStations (stations : List (ℤ × SDENPCStation))
    (corps : List (ℤ × SDENPCCorporation)) : List NPCStation :=
  sortSlice (fun a b => decide (a.stationID < b.stationID))
    (stations.map (fun p =>
      { stationID := p.1
        solarSystemID := p.2.solarSystemID
        ownerID := p.2.ownerID
        ownerName := match corps.lookup p.2.ownerID with
          | some corp => getLocalizedName corp.name ("en")
          | none => ""
        typeID := p.2.typeID }))

/-- The `systemLookup` map of `transformSystemJumps`: built by iterating the
system slice, a later entry overriding an earlier one with the same ID. -/
def systemLookup (systems : List (SolarSystemG φ)) : ℤ → Option (SolarSystemG φ) :=
  systems.foldl (fun m sys => fun id => if id = sys.solarSystemID then some sys else m id)
    (fun _ => none)

/-- The per-jump enrichment step of `transformSystemJumps`: endpoint IDs are
copied, parent IDs are filled from the lookup when the endpoint is found and
stay at their zero value otherwise. -/
def enrichJump (lookup : ℤ → Option (SolarSystemG φ)) (jump : SystemJump) : SystemJump :=
  let base : SystemJump :=
    { fromRegionID := 0
      fromConstellationID := 0
      fromSolarSystemID := jump.fromSolarSystemID
      toSolarSystemID := jump.toSolarSystemID
      toConstellationID := 0
      toRegionID := 0 }
  let withFrom := match lookup jump.fromSolarSystemID with
    | some sys => { base with fromRegionID := sys.regionID, fromConstellationID := sys.constellationID }
    | none => base
  match lookup jump.toSolarSystemID with
  | some sys => { withFrom with toRegionID := sys.regionID, toConstellationID := sys.constellationID }
  | none => withFrom

/-- The comparison of `transformSystemJumps`' final sort: by from-ID, then by
to-ID. -/
def jumpLess (a b : SystemJump) : Bool :=
  if a.fromSolarSystemID ≠ b.fromSolarSystemID then
    decide (a.fromSolarSystemID < b.fromSolarSystemID)
  else
    decide (a.toSolarSystemID < b.toSolarSystemID)

/-- `transformSystemJumps`: enrich every jump via the system lookup, then sort
by (from-ID, to-ID). -/
def transformSystemJumps (jumps : List SystemJump) (systems : List (SolarSystemG φ)) :
    List SystemJump :=
  sortSlice jumpLess (jumps.map (enrichJump (systemLookup systems)))

/-- The `bounds` record of `bounds.go`. -/
structure bounds where
  minX : ℚ
  maxX : ℚ
  minY : ℚ
  maxY : ℚ
  minZ : ℚ
  maxZ : ℚ
deriving DecidableEq

/-- The loop body of `calculateBounds`: widen the box by one system. -/
def updateBounds (b : bounds) (sys : SolarSystemG φ) : bounds :=
  { minX := if sys.x < b.minX then sys.x else b.minX
    maxX := if sys.x > b.maxX then sys.x else b.maxX
    minY := if sys.y < b.minY then sys.y else b.minY
    maxY := if sys.y > b.maxY then sys.y else b.maxY
    minZ := if sys.z < b.minZ then sys.z else b.minZ
    maxZ := if sys.z > b.maxZ then sys.z else b.maxZ }

/-- `calculateBounds`: all-zero box for an empty list, otherwise a fold of
`updateBounds` seeded with the first system's coordinates. -/
def calculateBounds : List (SolarSystemG φ) → bounds
  | [] => { minX := 0, maxX := 0, minY := 0, maxY := 0, minZ := 0, maxZ := 0 }
  | sys :: rest =>
    rest.foldl updateBounds
      { minX := sys.x, maxX := sys.x, minY := sys.y, maxY := sys.y, minZ := sys.z, maxZ := sys.z }

/-- `CalculateRegionBounds`: group the systems by `RegionID` (grouping a map
built by appending in slice order equals `List.filter`), then write the box
onto each region; a region with no systems is skipped (`continue`), keeping
its previous bounds. -/
def CalculateRegionBounds (regions : List (RegionG φ)) (systems : List (SolarSystemG ψ)) :
    List (RegionG φ) :=
  regions.map (fun r =>
    let sysList := systems.filter (fun sys => decide (sys.regionID = r.regionID))
    if sysList.isEmpty then r
    else
      let b := calculateBounds sysList
      { r with xMin := b.minX, xMax := b.maxX, yMin := b.minY, yMax := b.maxY,
               zMin := b.minZ, zMax := b.maxZ })

/-- `CalculateConstellationBounds`: as `CalculateRegionBounds`, grouped by
`ConstellationID`. -/
def CalculateConstellationBounds (constellations : List (ConstellationG φ))
    (systems : List (SolarSystemG ψ)) : List (ConstellationG φ) :=
  constellations.map (fun c =>
    let sysList := systems.filter (fun sys => decide (sys.constellationID = c.constellationID))
    if sysList.isEmpty then c
    else
      let b := calculateBounds sysList
      { c with xMin := b.minX, xMax := b.maxX, yMin := b.minY, yMax := b.maxY,
               zMin := b.minZ, zMax := b.maxZ })

/-- The `regionFactions` map of `InheritFactionIDs`: `RegionID → FactionID`
built by iterating the region slice (`some` = key present; a later region with
the same ID overrides an earlier one, as in a Go map). -/
def regionFactionIDs (regions : List (RegionG φ)) : ℤ → Option φ :=
  regions.foldl (fun m r => fun id => if id = r.regionID then some r.factionID else m id)
    (fun _ => none)

/-- Value-level `InheritFactionIDs`: a system without a faction inherits the
faction value of its region when the region has one (the Go pointer copy
`val := *factionID` is the reason a plain value copy is the right value-level
model; aliasing is treated in the pointer-level model below). -/
def InheritFactionIDs (systems : List SolarSystem) (regions : List Region) :
    List SolarSystem :=
  systems.map (fun sys =>
    if sys.factionID = none then
      match regionFactionIDs regions sys.regionID with
      | some (some v) => { sys with factionID := some v }
      | _ => sys
    else sys)

/-- `(*Transformer).Transform` (the `config.Verbose` logging is dropped):
sort/transform each collection, then bounds aggregation, then faction
inheritance, in exactly the Go call order. -/
def Transform (pr : ParseResult) : ConvertedData :=
  let systems := transformSolarSystems pr.solarSystems
  let regions := sortRegions pr.regions
  let constellations := sortConstellations pr.constellations
  let invGroups := transformShipGroups pr.groups
  let invTypes := transformShipTypes pr.types pr.groups
  let wormholeClasses := sortWormholeClasses pr.wormholeClasses
  let systemJumps := transformSystemJumps pr.systemJumps systems
  let regions2 := CalculateRegionBounds regions systems
  let constellations2 := CalculateConstellationBounds constellations systems
  let systems2 := InheritFactionIDs systems regions2
  let npcStations := transformNPCStations pr.npcStations pr.npcCorporations
  { Universe := { regions := regions2, constellations := constellations2, solarSystems := systems2 }
    invTypes := invTypes
    invGroups := invGroups
    wormholeClasses := wormholeClasses
    systemJumps := systemJumps
    npcStations := npcStations }

/-- Validation threshold `minSolarSystems`. -/
def minSolarSystems : ℕ := 8000

/-- Validation threshold `minRegions`. -/
def minRegions : ℕ := 100

/-- Validation threshold `minConstellations`. -/
def minConstellations : ℕ := 1000

/-- Validation threshold `minShipTypes`. -/
def minShipTypes : ℕ := 500

/-- Validation threshold `minShipGroups`. -/
def minShipGroups : ℕ := 30

/-- Validation threshold `minSystemJumps`. -/
def minSystemJumps : ℕ := 13000

/-- Validation threshold `minWormholeClasses`. -/
def minWormholeClasses : ℕ := 750

/-- Validation threshold `minNPCStations`. -/
def minNPCStations : ℕ := 40

/-- `(*Transformer).Validate`: record the counts, append one warning per
below-threshold count, then one error per empty required collection, in the
Go append order. -/
def Validate (data : ConvertedData) : ValidationResult :=
  let nSystems := data.Universe.solarSystems.length
  let nRegions := data.Universe.regions.length
  let nConstellations := data.Universe.constellations.length
  let nTypes := data.invTypes.length
  let nGroups := data.invGroups.length
  let nJumps := data.systemJumps.length
  let nClasses := data.wormholeClasses.length
  let nStations := data.npcStations.length
  { solarSystems := nSystems
    regions := nRegions
    constellations := nConstellations
    invTypes := nTypes
    invGroups := nGroups
    systemJumps := nJumps
    wormholeClasses := nClasses
    npcStations := nStations
    warnings :=
      (if nSystems < minSolarSystems then
        [s!"Solar system count ({nSystems}) is below expected minimum ({minSolarSystems})"] else []) ++
      (if nRegions < minRegions then
        [s!"Region count ({nRegions}) is below expected minimum ({minRegions})"] else []) ++
      (if nConstellations < minConstellations then
        [s!"Constellation count ({nConstellations}) is below expected minimum ({minConstellations})"] else []) ++
      (if nTypes < minShipTypes then
        [s!"Ship type count ({nTypes}) is below expected minimum ({minShipTypes})"] else []) ++
      (if nGroups < minShipGroups then
        [s!"Ship group count ({nGroups}) is below expected minimum ({minShipGroups})"] else []) ++
      (if nJumps < minSystemJumps then
        [s!"System jump count ({nJumps}) is below expected minimum ({minSystemJumps})"] else []) ++
      (if nClasses < minWormholeClasses then
        [s!"Wormhole class count ({nClasses}) is below expected minimum ({minWormholeClasses})"] else []) ++
      (if nStations < minNPCStations then
        [s!"NPC station count ({nStations}) is below expected minimum ({minNPCStations})"] else [])
    errors :=
      (if nSystems = 0 then [("No solar systems found" : String)] else []) ++
      (if nRegions = 0 then [("No regions found" : String)] else []) ++
      (if nConstellations = 0 then [("No constellations found" : String)] else []) }

/-- A heap of `int64` cells; an address is an index, `alloc` appends. -/
structure Heap where
  cells : List ℤ
deriving DecidableEq

/-- Read a cell (Go cannot read unallocated memory; `getD 0` is a harmless
total-function default). -/
def Heap.read (h : Heap) (a : Nat) : ℤ := h.cells.getD a 0

/-- Allocate a fresh cell holding `v`; returns the new heap and the address. -/
def Heap.alloc (h : Heap) (v : ℤ) : Heap × Nat :=
  (⟨h.cells ++ [v]⟩, h.cells.length)

/-- Overwrite the cell at `a` (models `*p = v`). -/
def Heap.write (h : Heap) (a : Nat) (v : ℤ) : Heap :=
  ⟨h.cells.set a v⟩

/-- The loop of pointer-level `InheritFactionIDs`: for each system without a
faction pointer whose region has one, read the region's cell and allocate a
fresh cell with that value (`val := *factionID; systems[i].FactionID = &val`). -/
def inheritLoop (rf : ℤ → Option (Option Nat)) :
    List SolarSystemP → Heap → List SolarSystemP × Heap
  | [], h => ([], h)
  | sys :: rest, h =>
    if sys.factionID = none then
      match rf sys.regionID with
      | some (some addr) =>
        let p := h.alloc (h.read addr)
        let result := inheritLoop rf rest p.1
        ({ sys with factionID := some p.2 } :: result.1, result.2)
      | _ =>
        let result := inheritLoop rf rest h
        (sys :: result.1, result.2)
    else
      let result := inheritLoop rf rest h
      (sys :: result.1, result.2)

/-- Pointer-level `InheritFactionIDs`. -/
def InheritFactionIDsP (systems : List SolarSystemP) (regions : List RegionP) (h : Heap) :
    List SolarSystemP × Heap :=
  inheritLoop (regionFactionIDs regions) systems h

/-- The universe part of `Transform` at pointer level: the same copies, sorts,
bounds aggregation and faction inheritance as `Transform`, threading the heap
of `int64` cells (the only memory the input and the output can share). -/
def TransformUniverseP (regions : List RegionP) (constellations : List ConstellationP)
    (systems : List SolarSystemP) (h : Heap) :
    List RegionP × List ConstellationP × List SolarSystemP × Heap :=
  let systems1 := transformSolarSystems systems
  let regions1 := sortRegions regions
  let constellations1 := sortConstellations constellations
  let regions2 := CalculateRegionBounds regions1 systems1
  let constellations2 := CalculateConstellationBounds constellations1 systems1
  let result := InheritFactionIDsP systems1 regions2 h
  (regions2, constellations2, result.1, result.2)


/-- Sample-data builder for witnesses and counterexamples: a solar system with
the given IDs, coordinates, security and faction, all other fields zero. -/
def mkSystem (rid cid sid : ℤ) (cx cy cz sec : ℚ) (fid : φ) : SolarSystemG φ :=
  { regionID := rid, constellationID := cid, solarSystemID := sid, solarSystemName := ""
    x := cx, y := cy, z := cz
    xMin := 0, xMax := 0, yMin := 0, yMax := 0, zMin := 0, zMax := 0
    luminosity := 0, border := false, fringe := false, corridor := false, hub := false
    international := false, regional := false, constellation := "None"
    security := sec, factionID := fid, radius := 0, sunTypeID := none, securityClass := "" }

/-- Sample-data builder: a region with the given ID, faction and x-bounds. -/
def mkRegion (rid : ℤ) (fid : φ) (xm xM : ℚ) : RegionG φ :=
  { regionID := rid, regionName := "", x := 0, y := 0, z := 0
    xMin := xm, xMax := xM, yMin := 0, yMax := 0, zMin := 0, zMax := 0
    factionID := fid, nebula := 0, radius := 0 }

/-- Sample-data builder: a constellation with the given IDs and faction. -/
def mkConstellation (rid cid : ℤ) (fid : φ) : ConstellationG φ :=
  { regionID := rid, constellationID := cid, constellationName := "", x := 0, y := 0, z := 0
    xMin := 0, xMax := 0, yMin := 0, yMax := 0, zMin := 0, zMax := 0
    factionID := fid, radius := 0 }

/-- Sample-data builder: a jump record carrying only its endpoint IDs. -/
def mkJump (f t : ℤ) : SystemJump :=
  { fromRegionID := 0, fromConstellationID := 0, fromSolarSystemID := f
    toSolarSystemID := t, toConstellationID := 0, toRegionID := 0 }


/-- Specification device (not from the source): the output list of
`inheritLoop`, with the freshly allocated addresses made explicit — they are
handed out sequentially from `base`. -/
def inheritSpecList (rf : ℤ → Option (Option Nat)) : List SolarSystemP → Nat → List SolarSystemP
  | [], _ => []
  | sys :: rest, base =>
    if sys.factionID = none then
      match rf sys.regionID with
      | some (some _) => { sys with factionID := some base } :: inheritSpecList rf rest (base + 1)
      | _ => sys :: inheritSpecList rf rest base
    else sys :: inheritSpecList rf rest base

/-- Specification device (not from the source): the cell values `inheritLoop`
allocates, in allocation order, as reads through `read`. -/
def inheritVals (rf : ℤ → Option (Option Nat)) (read : Nat → ℤ) : List SolarSystemP → List ℤ
  | [] => []
  | sys :: rest =>
    if sys.factionID = none then
      match rf sys.regionID with
      | some (some addr) => read addr :: inheritVals rf read rest
      | _ => inheritVals rf read rest
    else inheritVals rf read rest


/-- Default pointer-level system record used with `List.getD` indexing. -/
def dfltP : SolarSystemP := mkSystem 0 0 0 0 0 0 0 none


/-- Sample-data builder: an SDE group with the given category and name map. -/
def mkSDEGroup (cat : ℤ) (nm : List (String × String)) : SDEGroup :=
  { categoryID := cat, name := nm, published := true, anchorable := false, anchored := false
    fittableNonSingleton := false, useBasePrice := false, iconID := 0 }

/-- Sample-data builder: an SDE type with the given group and name map. -/
def mkSDEType (gid : ℤ) (nm : List (String × String)) : SDEType :=
  { groupID := gid, name := nm, description := [], mass := 0, volume := 0, capacity := 0
    portionSize := 0, published := true, marketGroupID := 0, graphicID := 0, iconID := 0
    soundID := 0, basePrice := 0, raceID := 0, sofFactionName := "" }


/-- Sample-data builder: a `ConvertedData` with every collection empty. -/
def emptyConverted : ConvertedData :=
  { Universe := { regions := [], constellations := [], solarSystems := [] }
    invTypes := [], invGroups := [], wormholeClasses := [], systemJumps := []
    npcStations := [] }

/-! ### Generic facts about the `sort.Slice` model -/

theorem sortSliceInsert_perm (less : α → α → Bool) (a : α) (l : List α) :
    List.Perm (sortSliceInsert less a l) (a :: l) := by
  induction l with
  | nil => simp [sortSliceInsert]
  | cons b l ih =>
    by_cases h : less b a
    · simp only [sortSliceInsert, if_pos h]
      exact (ih.cons b).trans (List.Perm.swap a b l)
    · simp [sortSliceInsert, h]

theorem sortSlice_perm (less : α → α → Bool) (l : List α) : List.Perm (sortSlice less l) l := by
  induction l with
  | nil => simp [sortSlice]
  | cons b l ih => exact (sortSliceInsert_perm less b (sortSlice less l)).trans (ih.cons b)

theorem sortSliceInsert_pairwise (less : α → α → Bool)
    (htot : ∀ a b, less a b = true → less b a = false)
    (htrans : ∀ a b c, less b a = false → less c b = false → less c a = false)
    (a : α) (l : List α) (hl : l.Pairwise (fun x y => less y x = false)) :
    (sortSliceInsert less a l).Pairwise (fun x y => less y x = false) := by
  induction l with
  | nil => simp [sortSliceInsert]
  | cons b l ih =>
    rcases List.pairwise_cons.mp hl with ⟨hb, hl2⟩
    by_cases h : less b a
    · simp only [sortSliceInsert, if_pos h]
      refine List.pairwise_cons.mpr ⟨?_, ih hl2⟩
      intro c hc
      rcases List.mem_cons.mp ((sortSliceInsert_perm less a l).mem_iff.mp hc) with rfl | hc
      · exact htot b c h
      · exact hb c hc
    · simp only [sortSliceInsert, if_neg h]
      refine List.pairwise_cons.mpr ⟨?_, hl⟩
      intro c hc
      rcases List.mem_cons.mp hc with hcb | hc
      · subst hcb
        exact Bool.eq_false_iff.mpr h
      · exact htrans a b c (Bool.eq_false_iff.mpr h) (hb c hc)

theorem sortSlice_pairwise (less : α → α → Bool)
    (htot : ∀ a b, less a b = true → less b a = false)
    (htrans : ∀ a b c, less b a = false → less c b = false → less c a = false)
    (l : List α) :
    (sortSlice less l).Pairwise (fun x y => less y x = false) := by
  induction l with
  | nil => simp [sortSlice]
  | cons b l ih => exact sortSliceInsert_pairwise less htot htrans b (sortSlice less l) ih

theorem sortSlice_key_pairwise (k : α → ℤ) (l : List α) :
    (sortSlice (fun a b => decide (k a < k b)) l).Pairwise (fun a b => k a ≤ k b) := by
  have h := sortSlice_pairwise (fun a b => decide (k a < k b))
    (by intro a b hab; simp only [decide_eq_true_eq] at hab; simp only [decide_eq_false_iff_not]; omega)
    (by intro a b c h1 h2; simp only [decide_eq_false_iff_not] at h1 h2 ⊢; omega) l
  exact h.imp (fun hxy => by simp only [decide_eq_false_iff_not] at hxy; omega)

theorem sortSlice_key_perm (k : α → ℤ) (l : List α) :
    List.Perm (sortSlice (fun a b => decide (k a < k b)) l) l := sortSlice_perm _ l

/-! ### Facts about the security classifier -/

theorem getTrueSecurity_else (s : ℚ) (hs : ¬(0 < s ∧ s < 5/100)) :
    GetTrueSecurity s =
      (if |mathRound ((TruncateToTwoDigits s - mathTrunc (TruncateToTwoDigits s * 10) / 10) * 100)| / 100 < 5/100
       then mathTrunc (TruncateToTwoDigits s * 10) / 10
       else if 0 ≤ s then (⌈TruncateToTwoDigits s * 10⌉ : ℚ) / 10
       else (⌊TruncateToTwoDigits s * 10⌋ : ℚ) / 10) := by
  unfold GetTrueSecurity
  rw [if_neg hs]

theorem mathTrunc_eval_pos (q : ℚ) (z : ℤ) (h0 : 0 ≤ q) (h1 : (z : ℚ) ≤ q) (h2 : q < z + 1) :
    mathTrunc q = (z : ℚ) := by
  rw [mathTrunc, if_pos h0, Int.floor_eq_iff.mpr ⟨h1, h2⟩]

theorem mathTrunc_eval_neg (q : ℚ) (z : ℤ) (h0 : ¬ 0 ≤ q) (h1 : (z : ℚ) - 1 < q) (h2 : q ≤ z) :
    mathTrunc q = (z : ℚ) := by
  rw [mathTrunc, if_neg h0, Int.ceil_eq_iff.mpr ⟨h1, h2⟩]

theorem mathRound_eval_pos (q : ℚ) (z : ℤ) (h0 : 0 ≤ q) (h1 : (z : ℚ) ≤ q + 1/2)
    (h2 : q + 1/2 < z + 1) : mathRound q = (z : ℚ) := by
  rw [mathRound, if_pos h0, Int.floor_eq_iff.mpr ⟨h1, h2⟩]

theorem mathRound_eval_neg (q : ℚ) (z : ℤ) (h0 : ¬ 0 ≤ q) (h1 : (z : ℚ) - 1 < q - 1/2)
    (h2 : q - 1/2 ≤ z) : mathRound q = (z : ℚ) := by
  rw [mathRound, if_neg h0, Int.ceil_eq_iff.mpr ⟨h1, h2⟩]

theorem mathRound_intCast (z : ℤ) : mathRound (z : ℚ) = (z : ℚ) := by
  rw [mathRound]
  split_ifs with h
  · rw [show ⌊(z:ℚ) + 1/2⌋ = z from Int.floor_eq_iff.mpr ⟨by linarith, by linarith⟩]
  · rw [show ⌈(z:ℚ) - 1/2⌉ = z from Int.ceil_eq_iff.mpr ⟨by linarith, by linarith⟩]

theorem ceil_cast_eval (q : ℚ) (z : ℤ) (h1 : (z : ℚ) - 1 < q) (h2 : q ≤ z) :
    ((⌈q⌉ : ℤ) : ℚ) = (z : ℚ) := by
  rw [Int.ceil_eq_iff.mpr ⟨h1, h2⟩]

theorem floor_cast_eval (q : ℚ) (z : ℤ) (h1 : (z : ℚ) ≤ q) (h2 : q < z + 1) :
    ((⌊q⌋ : ℤ) : ℚ) = (z : ℚ) := by
  rw [Int.floor_eq_iff.mpr ⟨h1, h2⟩]

theorem getTrueSecurity_small_eq (s : ℚ) (h1 : 0 < s) (h2 : s < 5/100) :
    GetTrueSecurity s = 1/10 := by
  unfold GetTrueSecurity
  rw [if_pos ⟨h1, h2⟩]
  rw [ceil_cast_eval (s * 10) 1 (by push_cast; linarith) (by push_cast; linarith)]
  norm_num

theorem getTrueSecurity_pos_ne_zero (s : ℚ) (h : 0 < s) : GetTrueSecurity s ≠ 0 := by
  by_cases h2 : s < 5/100
  · rw [getTrueSecurity_small_eq s h h2]; norm_num
  · push_neg at h2
    have hs0 : (0:ℚ) ≤ s := le_of_lt h
    have ht : TruncateToTwoDigits s = ((⌊s * 100⌋ : ℤ) : ℚ) / 100 := by
      rw [TruncateToTwoDigits, mathTrunc, if_pos (by positivity)]
    have hn5 : (5:ℤ) ≤ ⌊s * 100⌋ := Int.le_floor.mpr (by push_cast; linarith)
    set n := ⌊s * 100⌋ with hn
    rw [getTrueSecurity_else s (by push_neg; intro; linarith), ht]
    rw [show ((n:ℚ)/100 * 10) = (n:ℚ)/10 from by ring]
    have hq0 : (0:ℚ) ≤ (n:ℚ)/10 := by
      have : (0:ℚ) ≤ (n:ℚ) := by exact_mod_cast le_trans (by norm_num) hn5
      linarith
    have hmt : mathTrunc ((n:ℚ)/10) = ((⌊(n:ℚ)/10⌋ : ℤ) : ℚ) := by
      rw [mathTrunc, if_pos hq0]
    set m := ⌊(n:ℚ)/10⌋ with hm
    rw [hmt]
    have hml : 10 * m ≤ n := by
      have h1 := Int.floor_le ((n:ℚ)/10)
      rw [← hm] at h1
      exact_mod_cast (by push_cast at h1 ⊢; linarith : ((10 * m : ℤ) : ℚ) ≤ (n:ℚ))
    have hmr : n < 10 * m + 10 := by
      have h1 := Int.lt_floor_add_one ((n:ℚ)/10)
      rw [← hm] at h1
      exact_mod_cast (by push_cast at h1 ⊢; linarith : ((n:ℤ) : ℚ) < ((10 * m + 10 : ℤ) : ℚ))
    rw [show (((n:ℚ)/100 - (m:ℚ)/10) * 100) = ((n - 10*m : ℤ) : ℚ) from by push_cast; ring]
    rw [mathRound_intCast]
    rw [abs_of_nonneg (by exact_mod_cast (by omega : (0:ℤ) ≤ n - 10*m))]
    rw [if_pos hs0]
    split_ifs with hd
    · have hr5 : n - 10*m < 5 := by exact_mod_cast (by push_cast at hd ⊢; linarith : ((n - 10*m : ℤ):ℚ) < 5)
      have hm1 : 1 ≤ m := by omega
      have : (0:ℚ) < (m:ℚ)/10 := by
        have : (0:ℚ) < (m:ℚ) := by exact_mod_cast hm1
        linarith
      exact ne_of_gt this
    · have hnpos : (0:ℚ) < (n:ℚ)/10 := by
        have : (0:ℚ) < (n:ℚ) := by exact_mod_cast (by omega : (0:ℤ) < n)
        linarith
      have hc : (0:ℤ) < ⌈(n:ℚ)/10⌉ := Int.ceil_pos.mpr hnpos
      have : (0:ℚ) < ((⌈(n:ℚ)/10⌉ : ℤ) : ℚ) / 10 := by
        have : (0:ℚ) < ((⌈(n:ℚ)/10⌉ : ℤ) : ℚ) := by exact_mod_cast hc
        linarith
      exact ne_of_gt this

/-- C1: the security classifier reproduces the spec's edge-case table:
`0.047 → 0.1`, `0.9459 → 0.9`, `0.95 → 1.0`, `-0.45 → -0.5`, `-0.449 → -0.4`,
`0.0 → 0.0`, `-0.99 → -1.0`. -/
theorem getTrueSecurity_edge_cases :
    GetTrueSecurity (47/1000) = 1/10 ∧
    GetTrueSecurity (9459/10000) = 9/10 ∧
    GetTrueSecurity (95/100) = 1 ∧
    GetTrueSecurity (-45/100) = -5/10 ∧
    GetTrueSecurity (-449/1000) = -4/10 ∧
    GetTrueSecurity 0 = 0 ∧
    GetTrueSecurity (-99/100) = -1 := by
  refine ⟨?_, ?_, ?_, ?_, ?_, ?_, ?_⟩
  · rw [getTrueSecurity_small_eq (47/1000) (by norm_num) (by norm_num)]
  · rw [getTrueSecurity_else _ (by norm_num)]
    rw [show TruncateToTwoDigits (9459/10000 : ℚ) = ((94:ℤ):ℚ)/100 from by
      rw [TruncateToTwoDigits, mathTrunc_eval_pos ((9459/10000 : ℚ) * 100) 94 (by norm_num)
        (by norm_num) (by norm_num)]]
    rw [mathTrunc_eval_pos (((94:ℤ):ℚ)/100 * 10) 9 (by norm_num) (by norm_num) (by norm_num)]
    rw [show ((((94:ℤ):ℚ)/100 - ((9:ℤ):ℚ)/10) * 100) = (((4:ℤ):ℚ)) from by norm_num]
    rw [mathRound_eval_pos (((4:ℤ):ℚ)) 4 (by norm_num) (by norm_num) (by norm_num)]
    norm_num
  · rw [getTrueSecurity_else _ (by norm_num)]
    rw [show TruncateToTwoDigits (95/100 : ℚ) = ((95:ℤ):ℚ)/100 from by
      rw [TruncateToTwoDigits, mathTrunc_eval_pos ((95/100 : ℚ) * 100) 95 (by norm_num)
        (by norm_num) (by norm_num)]]
    rw [mathTrunc_eval_pos (((95:ℤ):ℚ)/100 * 10) 9 (by norm_num) (by norm_num) (by norm_num)]
    rw [show ((((95:ℤ):ℚ)/100 - ((9:ℤ):ℚ)/10) * 100) = (((5:ℤ):ℚ)) from by norm_num]
    rw [mathRound_eval_pos (((5:ℤ):ℚ)) 5 (by norm_num) (by norm_num) (by norm_num)]
    rw [ceil_cast_eval (((95:ℤ):ℚ)/100 * 10) 10 (by norm_num) (by norm_num)]
    norm_num
  · rw [getTrueSecurity_else _ (by norm_num)]
    rw [show TruncateToTwoDigits (-45/100 : ℚ) = ((-45:ℤ):ℚ)/100 from by
      rw [TruncateToTwoDigits, mathTrunc_eval_neg ((-45/100 : ℚ) * 100) (-45) (by norm_num)
        (by norm_num) (by norm_num)]]
    rw [mathTrunc_eval_neg (((-45:ℤ):ℚ)/100 * 10) (-4) (by norm_num) (by norm_num) (by norm_num)]
    rw [show ((((-45:ℤ):ℚ)/100 - ((-4:ℤ):ℚ)/10) * 100) = (((-5:ℤ):ℚ)) from by norm_num]
    rw [mathRound_eval_neg (((-5:ℤ):ℚ)) (-5) (by norm_num) (by norm_num) (by norm_num)]
    rw [floor_cast_eval (((-45:ℤ):ℚ)/100 * 10) (-5) (by norm_num) (by norm_num)]
    norm_num
  · rw [getTrueSecurity_else _ (by norm_num)]
    rw [show TruncateToTwoDigits (-449/1000 : ℚ) = ((-44:ℤ):ℚ)/100 from by
      rw [TruncateToTwoDigits, mathTrunc_eval_neg ((-449/1000 : ℚ) * 100) (-44) (by norm_num)
        (by norm_num) (by norm_num)]]
    rw [mathTrunc_eval_neg (((-44:ℤ):ℚ)/100 * 10) (-4) (by norm_num) (by norm_num) (by norm_num)]
    rw [show ((((-44:ℤ):ℚ)/100 - ((-4:ℤ):ℚ)/10) * 100) = (((-4:ℤ):ℚ)) from by norm_num]
    rw [mathRound_eval_neg (((-4:ℤ):ℚ)) (-4) (by norm_num) (by norm_num) (by norm_num)]
    norm_num
  · rw [getTrueSecurity_else _ (by norm_num)]
    rw [show TruncateToTwoDigits (0 : ℚ) = ((0:ℤ):ℚ)/100 from by
      rw [TruncateToTwoDigits, mathTrunc_eval_pos ((0 : ℚ) * 100) 0 (by norm_num)
        (by norm_num) (by norm_num)]]
    rw [mathTrunc_eval_pos (((0:ℤ):ℚ)/100 * 10) 0 (by norm_num) (by norm_num) (by norm_num)]
    rw [show ((((0:ℤ):ℚ)/100 - ((0:ℤ):ℚ)/10) * 100) = (((0:ℤ):ℚ)) from by norm_num]
    rw [mathRound_eval_pos (((0:ℤ):ℚ)) 0 (by norm_num) (by norm_num) (by norm_num)]
    norm_num
  · rw [getTrueSecurity_else _ (by norm_num)]
    rw [show TruncateToTwoDigits (-99/100 : ℚ) = ((-99:ℤ):ℚ)/100 from by
      rw [TruncateToTwoDigits, mathTrunc_eval_neg ((-99/100 : ℚ) * 100) (-99) (by norm_num)
        (by norm_num) (by norm_num)]]
    rw [mathTrunc_eval_neg (((-99:ℤ):ℚ)/100 * 10) (-9) (by norm_num) (by norm_num) (by norm_num)]
    rw [show ((((-99:ℤ):ℚ)/100 - ((-9:ℤ):ℚ)/10) * 100) = (((-9:ℤ):ℚ)) from by norm_num]
    rw [mathRound_eval_neg (((-9:ℤ):ℚ)) (-9) (by norm_num) (by norm_num) (by norm_num)]
    rw [floor_cast_eval (((-99:ℤ):ℚ)/100 * 10) (-10) (by norm_num) (by norm_num)]
    norm_num

/-- C2: every raw value strictly between 0 and 0.05 is classified as
`ceil(raw*10)/10`, which equals 0.1; and no strictly positive raw value is
ever classified as 0.0. -/
theorem getTrueSecurity_low_positive :
    (∀ s : ℚ, 0 < s → s < 5/100 →
      GetTrueSecurity s = (⌈s * 10⌉ : ℚ) / 10 ∧ GetTrueSecurity s = 1/10) ∧
    (∀ s : ℚ, 0 < s → GetTrueSecurity s ≠ 0) := by
  constructor
  · intro s h1 h2
    constructor
    · unfold GetTrueSecurity
      rw [if_pos ⟨h1, h2⟩]
    · exact getTrueSecurity_small_eq s h1 h2
  · exact getTrueSecurity_pos_ne_zero

/-- C2 witness: the theorem applied at the concrete inputs 0.01 and 0.06. -/
theorem getTrueSecurity_low_positive_witness :
    GetTrueSecurity (1/100) = 1/10 ∧ GetTrueSecurity (6/100) ≠ 0 :=
  ⟨(getTrueSecurity_low_positive.1 (1/100) (by norm_num) (by norm_num)).2,
   getTrueSecurity_low_positive.2 (6/100) (by norm_num)⟩

/-! ### Facts about the geometry aggregator -/

theorem foldl_minStep_le_init (l : List ℚ) (a : ℚ) :
    l.foldl (fun acc v => if v < acc then v else acc) a ≤ a := by
  induction l generalizing a with
  | nil => simp
  | cons b l ih =>
    simp only [List.foldl_cons]
    refine le_trans (ih _) ?_
    split_ifs with h
    · linarith
    · linarith

theorem foldl_minStep_le_mem (l : List ℚ) (a : ℚ) :
    ∀ c ∈ l, l.foldl (fun acc v => if v < acc then v else acc) a ≤ c := by
  induction l generalizing a with
  | nil => simp
  | cons b l ih =>
    intro c hc
    simp only [List.foldl_cons]
    rcases List.mem_cons.mp hc with rfl | hc
    · refine le_trans (foldl_minStep_le_init l _) ?_
      split_ifs with h
      · linarith
      · linarith
    · exact ih _ c hc

theorem foldl_minStep_mem (l : List ℚ) (a : ℚ) :
    l.foldl (fun acc v => if v < acc then v else acc) a = a ∨
      l.foldl (fun acc v => if v < acc then v else acc) a ∈ l := by
  induction l generalizing a with
  | nil => left; rfl
  | cons b l ih =>
    simp only [List.foldl_cons]
    rcases ih (if b < a then b else a) with h | h
    · by_cases hba : b < a
      · right
        rw [if_pos hba]
        rw [if_pos hba] at h
        rw [h]
        exact List.mem_cons_self b l
      · left
        rw [if_neg hba]
        rw [if_neg hba] at h
        exact h
    · right
      exact List.mem_cons_of_mem b h

theorem foldl_maxStep_ge_init (l : List ℚ) (a : ℚ) :
    a ≤ l.foldl (fun acc v => if v > acc then v else acc) a := by
  induction l generalizing a with
  | nil => simp
  | cons b l ih =>
    simp only [List.foldl_cons]
    refine le_trans ?_ (ih _)
    split_ifs with h
    · linarith
    · linarith

theorem foldl_maxStep_ge_mem (l : List ℚ) (a : ℚ) :
    ∀ c ∈ l, c ≤ l.foldl (fun acc v => if v > acc then v else acc) a := by
  induction l generalizing a with
  | nil => simp
  | cons b l ih =>
    intro c hc
    simp only [List.foldl_cons]
    rcases List.mem_cons.mp hc with rfl | hc
    · refine le_trans ?_ (foldl_maxStep_ge_init l _)
      split_ifs with h
      · linarith
      · linarith
    · exact ih _ c hc

theorem foldl_maxStep_mem (l : List ℚ) (a : ℚ) :
    l.foldl (fun acc v => if v > acc then v else acc) a = a ∨
      l.foldl (fun acc v => if v > acc then v else acc) a ∈ l := by
  induction l generalizing a with
  | nil => left; rfl
  | cons b l ih =>
    simp only [List.foldl_cons]
    rcases ih (if b > a then b else a) with h | h
    · by_cases hba : b > a
      · right
        rw [if_pos hba]
        rw [if_pos hba] at h
        rw [h]
        exact List.mem_cons_self b l
      · left
        rw [if_neg hba]
        rw [if_neg hba] at h
        exact h
    · right
      exact List.mem_cons_of_mem b h

theorem foldl_updateBounds_proj (l : List (SolarSystemG φ)) (b : bounds) :
    (l.foldl updateBounds b).minX
        = (l.map (fun s => s.x)).foldl (fun acc v => if v < acc then v else acc) b.minX ∧
    (l.foldl updateBounds b).maxX
        = (l.map (fun s => s.x)).foldl (fun acc v => if v > acc then v else acc) b.maxX ∧
    (l.foldl updateBounds b).minY
        = (l.map (fun s => s.y)).foldl (fun acc v => if v < acc then v else acc) b.minY ∧
    (l.foldl updateBounds b).maxY
        = (l.map (fun s => s.y)).foldl (fun acc v => if v > acc then v else acc) b.maxY ∧
    (l.foldl updateBounds b).minZ
        = (l.map (fun s => s.z)).foldl (fun acc v => if v < acc then v else acc) b.minZ ∧
    (l.foldl updateBounds b).maxZ
        = (l.map (fun s => s.z)).foldl (fun acc v => if v > acc then v else acc) b.maxZ := by
  induction l generalizing b with
  | nil => exact ⟨rfl, rfl, rfl, rfl, rfl, rfl⟩
  | cons s l ih =>
    simp only [List.foldl_cons, List.map_cons]
    exact ih (updateBounds b s)

theorem calculateBounds_encloses (l : List (SolarSystemG φ)) :
    ∀ s ∈ l, (calculateBounds l).minX ≤ s.x ∧ s.x ≤ (calculateBounds l).maxX ∧
      (calculateBounds l).minY ≤ s.y ∧ s.y ≤ (calculateBounds l).maxY ∧
      (calculateBounds l).minZ ≤ s.z ∧ s.z ≤ (calculateBounds l).maxZ := by
  cases l with
  | nil => simp
  | cons sys rest =>
    intro s hs
    obtain ⟨h1, h2, h3, h4, h5, h6⟩ := foldl_updateBounds_proj rest
      { minX := sys.x, maxX := sys.x, minY := sys.y, maxY := sys.y, minZ := sys.z, maxZ := sys.z }
    simp only [calculateBounds]
    rw [h1, h2, h3, h4, h5, h6]
    rcases List.mem_cons.mp hs with rfl | hs
    · exact ⟨foldl_minStep_le_init _ _, foldl_maxStep_ge_init _ _,
        foldl_minStep_le_init _ _, foldl_maxStep_ge_init _ _,
        foldl_minStep_le_init _ _, foldl_maxStep_ge_init _ _⟩
    · exact ⟨foldl_minStep_le_mem _ _ _ (List.mem_map_of_mem _ hs),
        foldl_maxStep_ge_mem _ _ _ (List.mem_map_of_mem _ hs),
        foldl_minStep_le_mem _ _ _ (List.mem_map_of_mem _ hs),
        foldl_maxStep_ge_mem _ _ _ (List.mem_map_of_mem _ hs),
        foldl_minStep_le_mem _ _ _ (List.mem_map_of_mem _ hs),
        foldl_maxStep_ge_mem _ _ _ (List.mem_map_of_mem _ hs)⟩

theorem calculateBounds_attained (l : List (SolarSystemG φ)) (hl : l ≠ []) :
    (∃ s ∈ l, (calculateBounds l).minX = s.x) ∧ (∃ s ∈ l, (calculateBounds l).maxX = s.x) ∧
    (∃ s ∈ l, (calculateBounds l).minY = s.y) ∧ (∃ s ∈ l, (calculateBounds l).maxY = s.y) ∧
    (∃ s ∈ l, (calculateBounds l).minZ = s.z) ∧ (∃ s ∈ l, (calculateBounds l).maxZ = s.z) := by
  cases l with
  | nil => exact absurd rfl hl
  | cons sys rest =>
    obtain ⟨h1, h2, h3, h4, h5, h6⟩ := foldl_updateBounds_proj rest
      { minX := sys.x, maxX := sys.x, minY := sys.y, maxY := sys.y, minZ := sys.z, maxZ := sys.z }
    have hmk : ∀ (proj : SolarSystemG φ → ℚ) (v : ℚ),
        (v = proj sys ∨ v ∈ rest.map proj) → ∃ s ∈ sys :: rest, v = proj s := by
      intro proj v hv
      rcases hv with hv | hv
      · exact ⟨sys, List.mem_cons_self sys rest, hv⟩
      · obtain ⟨s, hs, hsv⟩ := List.mem_map.mp hv
        exact ⟨s, List.mem_cons_of_mem sys hs, hsv.symm⟩
    refine ⟨hmk (fun s => s.x) _ ?_, hmk (fun s => s.x) _ ?_, hmk (fun s => s.y) _ ?_,
      hmk (fun s => s.y) _ ?_, hmk (fun s => s.z) _ ?_, hmk (fun s => s.z) _ ?_⟩
    · simp only [calculateBounds]
      rw [h1]; exact foldl_minStep_mem _ _
    · simp only [calculateBounds]
      rw [h2]; exact foldl_maxStep_mem _ _
    · simp only [calculateBounds]
      rw [h3]; exact foldl_minStep_mem _ _
    · simp only [calculateBounds]
      rw [h4]; exact foldl_maxStep_mem _ _
    · simp only [calculateBounds]
      rw [h5]; exact foldl_minStep_mem _ _
    · simp only [calculateBounds]
      rw [h6]; exact foldl_maxStep_mem _ _

theorem forall2_map_self {α β : Type} {R : α → β → Prop} (f : α → β) (l : List α)
    (h : ∀ x ∈ l, R x (f x)) : List.Forall₂ R l (l.map f) := by
  induction l with
  | nil => exact List.Forall₂.nil
  | cons a l ih =>
    exact List.Forall₂.cons (h a (List.mem_cons_self a l))
      (ih (fun x hx => h x (List.mem_cons_of_mem a hx)))

/-- C3 counterexample: `CalculateRegionBounds` leaves a child-less region's
bounds untouched rather than forcing them to 0 — a region entering with
`xMin = 7, xMax = 8` and no systems keeps those values. -/
theorem calculateRegionBounds_empty_counterexample :
    (CalculateRegionBounds [mkRegion 1 (none : Option ℤ) 7 8] ([] : List SolarSystem)).map
        (fun r => (r.xMin, r.xMax)) = [((7:ℚ), (8:ℚ))] ∧ (7:ℚ) ≠ 0 := by
  decide

/-- C3 (amended): after `CalculateRegionBounds` every region with at least one
child system (same `RegionID`) carries the component-wise min/max of its
children's coordinates in its six bounds fields, and every region with zero
child systems is returned unchanged (hence keeps all-zero bounds exactly when
it entered with all-zero bounds, as parsed regions do); analogously for
`CalculateConstellationBounds` over `ConstellationID`. -/
theorem calculateRegionConstellationBounds_spec
    (regions : List Region) (constellations : List Constellation) (systems : List SolarSystem) :
    List.Forall₂ (fun r r2 =>
        (systems.filter (fun s => decide (s.regionID = r.regionID)) = [] → r2 = r) ∧
        (systems.filter (fun s => decide (s.regionID = r.regionID)) ≠ [] →
          (∀ s ∈ systems.filter (fun s => decide (s.regionID = r.regionID)),
              r2.xMin ≤ s.x ∧ s.x ≤ r2.xMax ∧ r2.yMin ≤ s.y ∧ s.y ≤ r2.yMax ∧
              r2.zMin ≤ s.z ∧ s.z ≤ r2.zMax) ∧
          (∃ s ∈ systems.filter (fun s => decide (s.regionID = r.regionID)), r2.xMin = s.x) ∧
          (∃ s ∈ systems.filter (fun s => decide (s.regionID = r.regionID)), r2.xMax = s.x) ∧
          (∃ s ∈ systems.filter (fun s => decide (s.regionID = r.regionID)), r2.yMin = s.y) ∧
          (∃ s ∈ systems.filter (fun s => decide (s.regionID = r.regionID)), r2.yMax = s.y) ∧
          (∃ s ∈ systems.filter (fun s => decide (s.regionID = r.regionID)), r2.zMin = s.z) ∧
          (∃ s ∈ systems.filter (fun s => decide (s.regionID = r.regionID)), r2.zMax = s.z)))
      regions (CalculateRegionBounds regions systems) ∧
    List.Forall₂ (fun c c2 =>
        (systems.filter (fun s => decide (s.constellationID = c.constellationID)) = [] → c2 = c) ∧
        (systems.filter (fun s => decide (s.constellationID = c.constellationID)) ≠ [] →
          (∀ s ∈ systems.filter (fun s => decide (s.constellationID = c.constellationID)),
              c2.xMin ≤ s.x ∧ s.x ≤ c2.xMax ∧ c2.yMin ≤ s.y ∧ s.y ≤ c2.yMax ∧
              c2.zMin ≤ s.z ∧ s.z ≤ c2.zMax) ∧
          (∃ s ∈ systems.filter (fun s => decide (s.constellationID = c.constellationID)), c2.xMin = s.x) ∧
          (∃ s ∈ systems.filter (fun s => decide (s.constellationID = c.constellationID)), c2.xMax = s.x) ∧
          (∃ s ∈ systems.filter (fun s => decide (s.constellationID = c.constellationID)), c2.yMin = s.y) ∧
          (∃ s ∈ systems.filter (fun s => decide (s.constellationID = c.constellationID)), c2.yMax = s.y) ∧
          (∃ s ∈ systems.filter (fun s => decide (s.constellationID = c.constellationID)), c2.zMin = s.z) ∧
          (∃ s ∈ systems.filter (fun s => decide (s.constellationID = c.constellationID)), c2.zMax = s.z)))
      constellations (CalculateConstellationBounds constellations systems) := by
  constructor
  · unfold CalculateRegionBounds
    apply forall2_map_self
    intro r _
    by_cases hemp : systems.filter (fun s => decide (s.regionID = r.regionID)) = []
    · refine ⟨fun _ => ?_, fun hne => absurd hemp hne⟩
      simp only [hemp, List.isEmpty_nil, if_true]
    · have hval : (systems.filter (fun s => decide (s.regionID = r.regionID))).isEmpty = false := by
        simpa [List.isEmpty_iff] using hemp
      refine ⟨fun h => absurd h hemp, fun _ => ?_⟩
      simp only [hval, Bool.false_eq_true, if_false]
      exact ⟨calculateBounds_encloses _, calculateBounds_attained _ hemp⟩
  · unfold CalculateConstellationBounds
    apply forall2_map_self
    intro c _
    by_cases hemp : systems.filter (fun s => decide (s.constellationID = c.constellationID)) = []
    · refine ⟨fun _ => ?_, fun hne => absurd hemp hne⟩
      simp only [hemp, List.isEmpty_nil, if_true]
    · have hval : (systems.filter (fun s => decide (s.constellationID = c.constellationID))).isEmpty = false := by
        simpa [List.isEmpty_iff] using hemp
      refine ⟨fun h => absurd h hemp, fun _ => ?_⟩
      simp only [hval, Bool.false_eq_true, if_false]
      exact ⟨calculateBounds_encloses _, calculateBounds_attained _ hemp⟩

/-- C3 witness: the amended theorem applied to one region with one child
system (bounds become the child's coordinates) and to one region without
children (record returned unchanged). -/
theorem calculateRegionConstellationBounds_spec_witness :
    (CalculateRegionBounds [mkRegion 1 (none : Option ℤ) 5 6] ([] : List SolarSystem)).map
        (fun r => (r.xMin, r.xMax)) = [((5:ℚ), (6:ℚ))] ∧
    (CalculateRegionBounds [mkRegion 1 (none : Option ℤ) 0 0]
        [mkSystem 1 1 101 2 3 4 0 (none : Option ℤ)]).map (fun r => r.xMin) = [(2:ℚ)] := by
  constructor
  · have h := (calculateRegionConstellationBounds_spec [mkRegion 1 (none : Option ℤ) 5 6] []
      ([] : List SolarSystem)).1
    rcases List.forall₂_cons_left_iff.mp h with ⟨r2, u, hrel, hrest, heq⟩
    rw [heq, List.forall₂_nil_left_iff.mp hrest]
    rw [hrel.1 (by decide)]
    decide
  · have h := (calculateRegionConstellationBounds_spec [mkRegion 1 (none : Option ℤ) 0 0] []
      [mkSystem 1 1 101 2 3 4 0 (none : Option ℤ)]).1
    rcases List.forall₂_cons_left_iff.mp h with ⟨r2, u, hrel, hrest, heq⟩
    rw [heq, List.forall₂_nil_left_iff.mp hrest]
    obtain ⟨-, hx, -⟩ := hrel.2 (by decide)
    rcases hx with ⟨s, hs, hxv⟩
    have hss : s = mkSystem 1 1 101 2 3 4 0 (none : Option ℤ) := by
      have := hs
      simp only [List.mem_filter, List.mem_singleton] at this
      exact this.1
    rw [hss] at hxv
    simp only [List.map_cons, List.map_nil]
    rw [hxv]
    decide

/-! ### Facts about pointer-level faction inheritance -/

theorem getD_append_lt (cells ext : List ℤ) (a : Nat) (ha : a < cells.length) :
    (cells ++ ext).getD a 0 = cells.getD a 0 := by
  rw [List.getD_eq_getElem?_getD, List.getD_eq_getElem?_getD, List.getElem?_append_left ha]

theorem getD_append_add (cells ext : List ℤ) (k : Nat) :
    (cells ++ ext).getD (cells.length + k) 0 = ext.getD k 0 := by
  rw [List.getD_eq_getElem?_getD, List.getD_eq_getElem?_getD,
    List.getElem?_append_right (Nat.le_add_right _ _)]
  rw [Nat.add_sub_cancel_left]

theorem inheritVals_congr (rf : ℤ → Option (Option Nat)) (read1 read2 : Nat → ℤ)
    (l : List SolarSystemP)
    (h : ∀ rid addr, rf rid = some (some addr) → read1 addr = read2 addr) :
    inheritVals rf read1 l = inheritVals rf read2 l := by
  induction l with
  | nil => rfl
  | cons sys rest ih =>
    by_cases hf : sys.factionID = none
    · rcases hrr : rf sys.regionID with _ | (_ | addr)
      · simp only [inheritVals, hf, hrr, if_true, ih]
      · simp only [inheritVals, hf, hrr, if_true, ih]
      · simp only [inheritVals, hf, hrr, if_true, ih, h sys.regionID addr hrr]
    · simp only [inheritVals, hf, if_false, ih]

theorem inheritLoop_eq (rf : ℤ → Option (Option Nat)) (l : List SolarSystemP) (h : Heap)
    (hrf : ∀ rid addr, rf rid = some (some addr) → addr < h.cells.length) :
    inheritLoop rf l h =
      (inheritSpecList rf l h.cells.length, ⟨h.cells ++ inheritVals rf h.read l⟩) := by
  induction l generalizing h with
  | nil => simp [inheritLoop, inheritSpecList, inheritVals]
  | cons sys rest ih =>
    by_cases hf : sys.factionID = none
    · rcases hrr : rf sys.regionID with _ | (_ | addr)
      · simp only [inheritLoop, inheritSpecList, inheritVals, hf, hrr, if_true]
        rw [ih h hrf]
      · simp only [inheritLoop, inheritSpecList, inheritVals, hf, hrr, if_true]
        rw [ih h hrf]
      · simp only [inheritLoop, inheritSpecList, inheritVals, hf, hrr, if_true, Heap.alloc]
        rw [ih ⟨h.cells ++ [h.read addr]⟩ (by
          intro rid a ha
          simp only [List.length_append, List.length_cons, List.length_nil]
          exact Nat.lt_of_lt_of_le (hrf rid a ha) (by omega))]
        have hv : inheritVals rf (Heap.read ⟨h.cells ++ [h.read addr]⟩) rest
            = inheritVals rf h.read rest := by
          apply inheritVals_congr
          intro rid a ha
          show (h.cells ++ [h.read addr]).getD a 0 = h.cells.getD a 0
          exact getD_append_lt _ _ _ (hrf rid a ha)
        simp only [hv, List.length_append, List.length_cons, List.length_nil, List.append_assoc,
          List.singleton_append]
    · simp only [inheritLoop, inheritSpecList, inheritVals, hf, if_false]
      rw [ih h hrf]

theorem getD_mem {α : Type} {l : List α} {i : ℕ} (h : i < l.length) (d : α) : l.getD i d ∈ l := by
  rw [List.getD_eq_getElem?_getD, List.getElem?_eq_getElem h]
  exact List.getElem_mem h

theorem heap_write_read_ne (h : Heap) (a b : Nat) (w : ℤ) (hne : a ≠ b) :
    (h.write a w).read b = h.read b := by
  show (h.cells.set a w).getD b 0 = h.cells.getD b 0
  rw [List.getD_eq_getElem?_getD, List.getD_eq_getElem?_getD, List.getElem?_set_ne hne]

theorem inheritSpecList_length (rf : ℤ → Option (Option Nat)) (l : List SolarSystemP)
    (base : Nat) : (inheritSpecList rf l base).length = l.length := by
  induction l generalizing base with
  | nil => rfl
  | cons sys rest ih =>
    by_cases hf : sys.factionID = none
    · rcases hrr : rf sys.regionID with _ | (_ | addr)
      · simp only [inheritSpecList, hf, hrr, if_true, List.length_cons, ih]
      · simp only [inheritSpecList, hf, hrr, if_true, List.length_cons, ih]
      · simp only [inheritSpecList, hf, hrr, if_true, List.length_cons, ih]
    · simp only [inheritSpecList, hf, if_false, List.length_cons, ih]

theorem inheritSpecList_unchanged (rf : ℤ → Option (Option Nat)) (l : List SolarSystemP)
    (base : Nat) :
    ∀ i, i < l.length →
      ¬((l.getD i dfltP).factionID = none ∧
          ∃ addr, rf (l.getD i dfltP).regionID = some (some addr)) →
      (inheritSpecList rf l base).getD i dfltP = l.getD i dfltP := by
  induction l generalizing base with
  | nil => intro i hi; simp at hi
  | cons sys rest ih =>
    intro i hi hni
    rcases i with _ | i
    · simp only [List.getD_cons_zero] at hni ⊢
      by_cases hf : sys.factionID = none
      · rcases hrr : rf sys.regionID with _ | (_ | addr)
        · simp only [inheritSpecList, hf, hrr, if_true, List.getD_cons_zero]
        · simp only [inheritSpecList, hf, hrr, if_true, List.getD_cons_zero]
        · exact absurd ⟨hf, addr, hrr⟩ hni
      · simp only [inheritSpecList, hf, if_false, List.getD_cons_zero]
    · simp only [List.getD_cons_succ] at hni ⊢
      have hi' : i < rest.length := by simpa using Nat.lt_of_succ_lt_succ hi
      by_cases hf : sys.factionID = none
      · rcases hrr : rf sys.regionID with _ | (_ | addr)
        · simp only [inheritSpecList, hf, hrr, if_true, List.getD_cons_succ]
          exact ih base i hi' hni
        · simp only [inheritSpecList, hf, hrr, if_true, List.getD_cons_succ]
          exact ih base i hi' hni
        · simp only [inheritSpecList, hf, hrr, if_true, List.getD_cons_succ]
          exact ih (base + 1) i hi' hni
      · simp only [inheritSpecList, hf, if_false, List.getD_cons_succ]
        exact ih base i hi' hni

theorem inheritSpecList_inherit (rf : ℤ → Option (Option Nat)) (l : List SolarSystemP)
    (base : Nat) (read : Nat → ℤ) :
    ∀ i, i < l.length → ∀ addr,
      (l.getD i dfltP).factionID = none →
      rf (l.getD i dfltP).regionID = some (some addr) →
      ∃ k, k < (inheritVals rf read l).length ∧
        (inheritSpecList rf l base).getD i dfltP
          = { l.getD i dfltP with factionID := some (base + k) } ∧
        (inheritVals rf read l).getD k 0 = read addr := by
  induction l generalizing base with
  | nil => intro i hi; simp at hi
  | cons sys rest ih =>
    intro i hi addr hf hrr
    rcases i with _ | i
    · simp only [List.getD_cons_zero] at hf hrr ⊢
      refine ⟨0, ?_, ?_, ?_⟩
      · simp only [inheritVals, hf, hrr, if_true, List.length_cons]
        omega
      · simp only [inheritSpecList, hf, hrr, if_true, List.getD_cons_zero, Nat.add_zero]
      · simp only [inheritVals, hf, hrr, if_true, List.getD_cons_zero]
    · simp only [List.getD_cons_succ] at hf hrr ⊢
      have hi' : i < rest.length := by simpa using Nat.lt_of_succ_lt_succ hi
      by_cases hfs : sys.factionID = none
      · rcases hrs : rf sys.regionID with _ | (_ | addr0)
        · obtain ⟨k, hk, hs, hv⟩ := ih base i hi' addr hf hrr
          exact ⟨k, by simpa [inheritVals, hfs, hrs] using hk, by
            simpa [inheritSpecList, hfs, hrs] using hs, by
            simpa [inheritVals, hfs, hrs] using hv⟩
        · obtain ⟨k, hk, hs, hv⟩ := ih base i hi' addr hf hrr
          exact ⟨k, by simpa [inheritVals, hfs, hrs] using hk, by
            simpa [inheritSpecList, hfs, hrs] using hs, by
            simpa [inheritVals, hfs, hrs] using hv⟩
        · obtain ⟨k, hk, hs, hv⟩ := ih (base + 1) i hi' addr hf hrr
          refine ⟨k + 1, ?_, ?_, ?_⟩
          · simp only [inheritVals, hfs, hrs, if_true, List.length_cons]
            omega
          · simp only [inheritSpecList, hfs, hrs, if_true, List.getD_cons_succ]
            rw [show base + 1 + k = base + (k + 1) from by omega] at hs
            exact hs
          · simp only [inheritVals, hfs, hrs, if_true, List.getD_cons_succ]
            exact hv
      · obtain ⟨k, hk, hs, hv⟩ := ih base i hi' addr hf hrr
        exact ⟨k, by simpa [inheritVals, hfs] using hk, by
          simpa [inheritSpecList, hfs] using hs, by
          simpa [inheritVals, hfs] using hv⟩

theorem inheritSpecList_addr_cases (rf : ℤ → Option (Option Nat)) (l : List SolarSystemP)
    (base : Nat) :
    ∀ i, i < l.length → ∀ a,
      ((inheritSpecList rf l base).getD i dfltP).factionID = some a →
      (l.getD i dfltP).factionID = some a ∨ base ≤ a := by
  induction l generalizing base with
  | nil => intro i hi; simp at hi
  | cons sys rest ih =>
    intro i hi a ha
    rcases i with _ | i
    · by_cases hf : sys.factionID = none
      · rcases hrr : rf sys.regionID with _ | (_ | addr)
        · left
          simpa [inheritSpecList, hf, hrr] using ha
        · left
          simpa [inheritSpecList, hf, hrr] using ha
        · right
          simp only [inheritSpecList, hf, hrr, if_true, List.getD_cons_zero] at ha
          simp only [Option.some.injEq] at ha
          omega
      · left
        simpa [inheritSpecList, hf] using ha
    · have hi' : i < rest.length := by simpa using Nat.lt_of_succ_lt_succ hi
      simp only [List.getD_cons_succ]
      by_cases hf : sys.factionID = none
      · rcases hrr : rf sys.regionID with _ | (_ | addr)
        · exact ih base i hi' a (by simpa [inheritSpecList, hf, hrr] using ha)
        · exact ih base i hi' a (by simpa [inheritSpecList, hf, hrr] using ha)
        · rcases ih (base + 1) i hi' a (by simpa [inheritSpecList, hf, hrr] using ha) with hc | hc
          · exact Or.inl hc
          · exact Or.inr (by omega)
      · exact ih base i hi' a (by simpa [inheritSpecList, hf] using ha)

theorem inheritSpecList_fresh_ne (rf : ℤ → Option (Option Nat)) (l : List SolarSystemP)
    (base : Nat) (hold : ∀ s ∈ l, ∀ a, s.factionID = some a → a < base) :
    ∀ i j, i < l.length → j < l.length → i ≠ j →
    ∀ a b, ((inheritSpecList rf l base).getD i dfltP).factionID = some a → base ≤ a →
      ((inheritSpecList rf l base).getD j dfltP).factionID = some b → base ≤ b →
      a ≠ b := by
  induction l generalizing base with
  | nil => intro i j hi; simp at hi
  | cons sys rest ih =>
    intro i j hi hj hij a b ha haB hb hbB
    have hold' : ∀ s ∈ rest, ∀ a, s.factionID = some a → a < base :=
      fun s hs => hold s (List.mem_cons_of_mem sys hs)
    have hold1 : ∀ s ∈ rest, ∀ a, s.factionID = some a → a < base + 1 :=
      fun s hs a hsa => Nat.lt_succ_of_lt (hold' s hs a hsa)
    have htail : ∀ (base' : Nat) (m : Nat), m < rest.length →
        ∀ c, ((inheritSpecList rf rest base').getD m dfltP).factionID = some c →
        base ≤ base' → base' ≤ c ∨ c < base := by
      intro base' m hm c hc hbb
      rcases inheritSpecList_addr_cases rf rest base' m hm c hc with hcase | hcase
      · exact Or.inr (hold' _ (getD_mem hm dfltP) c hcase)
      · exact Or.inl hcase
    by_cases hf : sys.factionID = none
    · rcases hrr : rf sys.regionID with _ | (_ | addr)
      · -- head not inheriting (no region entry)
        rcases i with _ | i <;> rcases j with _ | j
        · exact absurd rfl hij
        · have : sys.factionID = some a := by
            simpa [inheritSpecList, hf, hrr] using ha
          rw [this] at hf
          exact Option.noConfusion hf
        · have : sys.factionID = some b := by
            simpa [inheritSpecList, hf, hrr] using hb
          rw [this] at hf
          exact Option.noConfusion hf
        · exact ih base hold' i j (by simpa using Nat.lt_of_succ_lt_succ hi)
            (by simpa using Nat.lt_of_succ_lt_succ hj) (by omega) a b
            (by simpa [inheritSpecList, hf, hrr] using ha) haB
            (by simpa [inheritSpecList, hf, hrr] using hb) hbB
      · rcases i with _ | i <;> rcases j with _ | j
        · exact absurd rfl hij
        · have : sys.factionID = some a := by
            simpa [inheritSpecList, hf, hrr] using ha
          rw [this] at hf
          exact Option.noConfusion hf
        · have : sys.factionID = some b := by
            simpa [inheritSpecList, hf, hrr] using hb
          rw [this] at hf
          exact Option.noConfusion hf
        · exact ih base hold' i j (by simpa using Nat.lt_of_succ_lt_succ hi)
            (by simpa using Nat.lt_of_succ_lt_succ hj) (by omega) a b
            (by simpa [inheritSpecList, hf, hrr] using ha) haB
            (by simpa [inheritSpecList, hf, hrr] using hb) hbB
      · -- head inherits: address base, tail gets base + 1
        rcases i with _ | i <;> rcases j with _ | j
        · exact absurd rfl hij
        · have hav : a = base := by
            have : some base = some a := by
              simpa [inheritSpecList, hf, hrr] using ha
            simpa using this.symm
          have hj' : j < rest.length := by simpa using Nat.lt_of_succ_lt_succ hj
          have hbtail : ((inheritSpecList rf rest (base + 1)).getD j dfltP).factionID = some b := by
            simpa [inheritSpecList, hf, hrr] using hb
          rcases htail (base + 1) j hj' b hbtail (by omega) with hc | hc
          · omega
          · omega
        · have hbv : b = base := by
            have : some base = some b := by
              simpa [inheritSpecList, hf, hrr] using hb
            simpa using this.symm
          have hi' : i < rest.length := by simpa using Nat.lt_of_succ_lt_succ hi
          have hatail : ((inheritSpecList rf rest (base + 1)).getD i dfltP).factionID = some a := by
            simpa [inheritSpecList, hf, hrr] using ha
          rcases htail (base + 1) i hi' a hatail (by omega) with hc | hc
          · omega
          · omega
        · have hi' : i < rest.length := by simpa using Nat.lt_of_succ_lt_succ hi
          have hj' : j < rest.length := by simpa using Nat.lt_of_succ_lt_succ hj
          have hatail : ((inheritSpecList rf rest (base + 1)).getD i dfltP).factionID = some a := by
            simpa [inheritSpecList, hf, hrr] using ha
          have hbtail : ((inheritSpecList rf rest (base + 1)).getD j dfltP).factionID = some b := by
            simpa [inheritSpecList, hf, hrr] using hb
          have haB' : base + 1 ≤ a := by
            rcases htail (base + 1) i hi' a hatail (by omega) with hc | hc
            · exact hc
            · omega
          have hbB' : base + 1 ≤ b := by
            rcases htail (base + 1) j hj' b hbtail (by omega) with hc | hc
            · exact hc
            · omega
          exact ih (base + 1) hold1 i j hi' hj' (by omega) a b hatail haB' hbtail hbB'
    · -- head keeps its own faction value
      rcases i with _ | i <;> rcases j with _ | j
      · exact absurd rfl hij
      · have : sys.factionID = some a := by
          simpa [inheritSpecList, hf] using ha
        have := hold sys (List.mem_cons_self sys rest) a this
        omega
      · have : sys.factionID = some b := by
          simpa [inheritSpecList, hf] using hb
        have := hold sys (List.mem_cons_self sys rest) b this
        omega
      · exact ih base hold' i j (by simpa using Nat.lt_of_succ_lt_succ hi)
          (by simpa using Nat.lt_of_succ_lt_succ hj) (by omega) a b
          (by simpa [inheritSpecList, hf] using ha) haB
          (by simpa [inheritSpecList, hf] using hb) hbB

theorem regionFactionIDs_foldl_aux {φ : Type} (regions : List (RegionG φ)) (m : ℤ → Option φ)
    (rid : ℤ) (v : φ) :
    (regions.foldl (fun m r => fun id => if id = r.regionID then some r.factionID else m id) m) rid
        = some v →
    (∃ r ∈ regions, r.regionID = rid ∧ r.factionID = v) ∨ m rid = some v := by
  induction regions generalizing m with
  | nil => intro h; exact Or.inr h
  | cons r rest ih =>
    intro h
    rcases ih _ h with hcase | hcase
    · obtain ⟨r0, hr0, hid, hfac⟩ := hcase
      exact Or.inl ⟨r0, List.mem_cons_of_mem r hr0, hid, hfac⟩
    · have hcase2 : (if rid = r.regionID then some r.factionID else m rid) = some v := hcase
      by_cases hid : rid = r.regionID
      · rw [if_pos hid] at hcase2
        exact Or.inl ⟨r, List.mem_cons_self r rest, hid.symm, by simpa using hcase2⟩
      · rw [if_neg hid] at hcase2
        exact Or.inr hcase2

theorem regionFactionIDs_result {φ : Type} (regions : List (RegionG φ)) (rid : ℤ) (v : φ) :
    regionFactionIDs regions rid = some v →
    ∃ r ∈ regions, r.regionID = rid ∧ r.factionID = v := by
  intro h
  rcases regionFactionIDs_foldl_aux regions _ rid v h with hcase | hcase
  · exact hcase
  · simp at hcase

/-- C4: pointer-level `InheritFactionIDs` spec.  Under a well-formed heap
(every faction pointer of the inputs points into the heap): a system with its
own faction pointer is untouched; a system without one whose region has no
faction entry is untouched; a system without one whose region has a faction
pointer gets a **fresh** cell (address at or beyond the old heap end) holding a
copy of the region's value, the region's own cell is unchanged, and writing
any value through the inherited pointer is not observable through any region's
pointer nor through any other system's pointer (no aliasing). -/
theorem inheritFactionIDsP_spec (systems : List SolarSystemP) (regions : List RegionP) (h : Heap)
    (hreg : ∀ r ∈ regions, ∀ a, r.factionID = some a → a < h.cells.length)
    (hsys : ∀ s ∈ systems, ∀ a, s.factionID = some a → a < h.cells.length) :
    (InheritFactionIDsP systems regions h).1.length = systems.length ∧
    (InheritFactionIDsP systems regions h).2.cells.take h.cells.length = h.cells ∧
    (∀ i, i < systems.length →
      ((systems.getD i dfltP).factionID ≠ none →
        (InheritFactionIDsP systems regions h).1.getD i dfltP = systems.getD i dfltP) ∧
      ((systems.getD i dfltP).factionID = none →
        (regionFactionIDs regions (systems.getD i dfltP).regionID = none ∨
         regionFactionIDs regions (systems.getD i dfltP).regionID = some none) →
        (InheritFactionIDsP systems regions h).1.getD i dfltP = systems.getD i dfltP) ∧
      (∀ addr, (systems.getD i dfltP).factionID = none →
        regionFactionIDs regions (systems.getD i dfltP).regionID = some (some addr) →
        ∃ a, (InheritFactionIDsP systems regions h).1.getD i dfltP
              = { systems.getD i dfltP with factionID := some a } ∧
          h.cells.length ≤ a ∧
          (InheritFactionIDsP systems regions h).2.read a = h.read addr ∧
          (InheritFactionIDsP systems regions h).2.read addr = h.read addr ∧
          (∀ w : ℤ,
            (∀ r ∈ regions, ∀ ra, r.factionID = some ra →
              ((InheritFactionIDsP systems regions h).2.write a w).read ra
                = (InheritFactionIDsP systems regions h).2.read ra) ∧
            (∀ j, j < systems.length → j ≠ i →
              ∀ b, ((InheritFactionIDsP systems regions h).1.getD j dfltP).factionID = some b →
                ((InheritFactionIDsP systems regions h).2.write a w).read b
                  = (InheritFactionIDsP systems regions h).2.read b)))) := by
  have hrf : ∀ rid addr, regionFactionIDs regions rid = some (some addr) →
      addr < h.cells.length := by
    intro rid addr hr
    obtain ⟨r, hrm, -, hfac⟩ := regionFactionIDs_result regions rid (some addr) hr
    exact hreg r hrm addr hfac
  have hcf : InheritFactionIDsP systems regions h
      = (inheritSpecList (regionFactionIDs regions) systems h.cells.length,
         ⟨h.cells ++ inheritVals (regionFactionIDs regions) h.read systems⟩) := by
    unfold InheritFactionIDsP
    exact inheritLoop_eq _ systems h hrf
  rw [hcf]
  refine ⟨inheritSpecList_length _ _ _, List.take_left _ _, ?_⟩
  intro i hi
  refine ⟨?_, ?_, ?_⟩
  · intro hfne
    exact inheritSpecList_unchanged _ _ _ i hi (by rintro ⟨hn, -⟩; exact hfne hn)
  · intro hfn hro
    refine inheritSpecList_unchanged _ _ _ i hi ?_
    rintro ⟨-, addr, haddr⟩
    rcases hro with h0 | h0 <;> rw [h0] at haddr <;> simp at haddr
  · intro addr hfn hrr
    obtain ⟨k, hk, hs, hv⟩ :=
      inheritSpecList_inherit (regionFactionIDs regions) systems h.cells.length h.read i hi
        addr hfn hrr
    refine ⟨h.cells.length + k, hs, Nat.le_add_right _ _, ?_, ?_, ?_⟩
    · show (h.cells ++ _).getD (h.cells.length + k) 0 = _
      rw [getD_append_add]
      exact hv
    · show (h.cells ++ _).getD addr 0 = _
      exact getD_append_lt _ _ _ (hrf _ addr hrr)
    · intro w
      constructor
      · intro r hrm ra hra
        apply heap_write_read_ne
        have : ra < h.cells.length := hreg r hrm ra hra
        omega
      · intro j hj hji b hb
        apply heap_write_read_ne
        rcases inheritSpecList_addr_cases _ systems h.cells.length j hj b hb with hc | hc
        · have : b < h.cells.length := hsys _ (getD_mem hj dfltP) b hc
          omega
        · have hai : ((inheritSpecList (regionFactionIDs regions) systems
              h.cells.length).getD i dfltP).factionID = some (h.cells.length + k) := by
            rw [hs]
          exact inheritSpecList_fresh_ne _ systems h.cells.length
            (fun s hsm a' ha' => hsys s hsm a' ha') i j hi hj (Ne.symm hji)
            (h.cells.length + k) b hai (Nat.le_add_right _ _) hb hc

/-- C4 witness: the theorem applied to one region owning heap cell 0 (value
500001), one system with its own pointer (left untouched) and one system
without (inherits). -/
theorem inheritFactionIDsP_spec_witness :
    (InheritFactionIDsP
        [mkSystem 1 1 101 0 0 0 0 (some 0 : Option Nat),
         mkSystem 1 1 102 0 0 0 0 (none : Option Nat)]
        [mkRegion 1 (some 0 : Option Nat) 0 0] ⟨[500001]⟩).1.length = 2 ∧
    (InheritFactionIDsP
        [mkSystem 1 1 101 0 0 0 0 (some 0 : Option Nat),
         mkSystem 1 1 102 0 0 0 0 (none : Option Nat)]
        [mkRegion 1 (some 0 : Option Nat) 0 0] ⟨[500001]⟩).2.cells.take 1 = [500001] ∧
    (InheritFactionIDsP
        [mkSystem 1 1 101 0 0 0 0 (some 0 : Option Nat),
         mkSystem 1 1 102 0 0 0 0 (none : Option Nat)]
        [mkRegion 1 (some 0 : Option Nat) 0 0] ⟨[500001]⟩).1.getD 0 dfltP
      = mkSystem 1 1 101 0 0 0 0 (some 0 : Option Nat) := by
  have h := inheritFactionIDsP_spec
    [mkSystem 1 1 101 0 0 0 0 (some 0 : Option Nat),
     mkSystem 1 1 102 0 0 0 0 (none : Option Nat)]
    [mkRegion 1 (some 0 : Option Nat) 0 0] ⟨[500001]⟩
    (by
      intro r hr a ha
      rcases List.mem_singleton.mp hr with rfl
      have ha2 : (some 0 : Option Nat) = some a := ha
      injection ha2 with ha3
      rw [← ha3]
      decide)
    (by
      intro s hs a ha
      rcases List.mem_cons.mp hs with rfl | hs
      · have ha2 : (some 0 : Option Nat) = some a := ha
        injection ha2 with ha3
        rw [← ha3]
        decide
      · rcases List.mem_singleton.mp hs with rfl
        exact Option.noConfusion (show (none : Option Nat) = some a from ha))
  refine ⟨h.1, h.2.1, ?_⟩
  exact (h.2.2 0 (by decide)).1 (by decide)

/-! ### Facts about the category filter -/

/-- C5: ship filtering is join-correct.  The group output is, as a multiset,
exactly the category-6 input entries (sorted ascending by `GroupID`); the type
output is exactly the input entries whose group is in the ship-group set
(sorted ascending by `TypeID`); every output type's `GroupID` belongs to an
output group; no output type's group lies outside category 6; display names
come from the `"en"` key of the name map, defaulting to `""`. -/
theorem transformShip_spec (types : List (ℤ × SDEType)) (groups : List (ℤ × SDEGroup)) :
    List.Perm (transformShipGroups groups)
      (groups.filterMap (fun p =>
        if p.2.categoryID = ShipCategoryID then
          some { groupID := p.1
                 categoryID := p.2.categoryID
                 groupName := getLocalizedName p.2.name ("en")
                 iconID := none
                 useBasePrice := false
                 anchored := false
                 anchorable := false
                 fittableNonSingleton := false
                 published := false }
        else none)) ∧
    (transformShipGroups groups).Pairwise (fun a b => a.groupID ≤ b.groupID) ∧
    List.Perm (transformShipTypes types groups)
      (types.filterMap (fun p =>
        if shipGroupIDs groups p.2.groupID then
          some { typeID := p.1
                 groupID := p.2.groupID
                 typeName := getLocalizedName p.2.name ("en")
                 description := ""
                 mass := p.2.mass
                 volume := p.2.volume
                 capacity := p.2.capacity
                 portionSize := 0
                 raceID := none
                 basePrice := 0
                 published := p.2.published
                 marketGroupID := none
                 iconID := none
                 soundID := none
                 graphicID := none }
        else none)) ∧
    (transformShipTypes types groups).Pairwise (fun a b => a.typeID ≤ b.typeID) ∧
    (∀ t ∈ transformShipTypes types groups,
      ∃ g ∈ transformShipGroups groups, g.groupID = t.groupID) ∧
    (∀ t ∈ transformShipTypes types groups,
      ∃ p ∈ groups, p.1 = t.groupID ∧ p.2.categoryID = ShipCategoryID) ∧
    (∀ names : List (String × String),
      (names.lookup ("en") = none → getLocalizedName names ("en") = "") ∧
      (∀ nm, names.lookup ("en") = some nm → getLocalizedName names ("en") = nm)) := by
  have hgPerm := sortSlice_perm (fun a b : InvGroup => decide (a.groupID < b.groupID))
    (groups.filterMap (fun p =>
      if p.2.categoryID = ShipCategoryID then
        some { groupID := p.1
               categoryID := p.2.categoryID
               groupName := getLocalizedName p.2.name ("en")
               iconID := none
               useBasePrice := false
               anchored := false
               anchorable := false
               fittableNonSingleton := false
               published := false }
      else none))
  have htPerm := sortSlice_perm (fun a b : InvType => decide (a.typeID < b.typeID))
    (types.filterMap (fun p =>
      if shipGroupIDs groups p.2.groupID then
        some { typeID := p.1
               groupID := p.2.groupID
               typeName := getLocalizedName p.2.name ("en")
               description := ""
               mass := p.2.mass
               volume := p.2.volume
               capacity := p.2.capacity
               portionSize := 0
               raceID := none
               basePrice := 0
               published := p.2.published
               marketGroupID := none
               iconID := none
               soundID := none
               graphicID := none }
      else none))
  have hTypeMem : ∀ t ∈ transformShipTypes types groups,
      ∃ p ∈ types, shipGroupIDs groups p.2.groupID = true ∧ t.groupID = p.2.groupID := by
    intro t ht
    have ht2 := htPerm.mem_iff.mp ht
    obtain ⟨p, hp, hpt⟩ := List.mem_filterMap.mp ht2
    by_cases hc : shipGroupIDs groups p.2.groupID
    · rw [if_pos hc] at hpt
      refine ⟨p, hp, hc, ?_⟩
      rw [← Option.some_inj.mp hpt]
    · rw [if_neg hc] at hpt
      exact Option.noConfusion hpt
  have hShipSet : ∀ gid : ℤ, shipGroupIDs groups gid = true →
      ∃ q ∈ groups, q.1 = gid ∧ q.2.categoryID = ShipCategoryID := by
    intro gid hgid
    obtain ⟨q, hq, hq2⟩ := List.any_eq_true.mp hgid
    simp only [decide_eq_true_eq] at hq2
    exact ⟨q, hq, hq2⟩
  refine ⟨hgPerm, sortSlice_key_pairwise _ _, htPerm, sortSlice_key_pairwise _ _, ?_, ?_, ?_⟩
  · intro t ht
    obtain ⟨p, hp, hsb, hgid⟩ := hTypeMem t ht
    obtain ⟨q, hq, hq1, hq2⟩ := hShipSet p.2.groupID hsb
    refine ⟨{ groupID := q.1
              categoryID := q.2.categoryID
              groupName := getLocalizedName q.2.name ("en")
              iconID := none
              useBasePrice := false
              anchored := false
              anchorable := false
              fittableNonSingleton := false
              published := false }, ?_, ?_⟩
    · exact hgPerm.symm.mem_iff.mp
        (List.mem_filterMap.mpr ⟨q, hq, by rw [if_pos hq2]⟩)
    · show q.1 = t.groupID
      rw [hq1, hgid]
  · intro t ht
    obtain ⟨p, hp, hsb, hgid⟩ := hTypeMem t ht
    obtain ⟨q, hq, hq1, hq2⟩ := hShipSet p.2.groupID hsb
    exact ⟨q, hq, by rw [hq1, hgid], hq2⟩
  · intro names
    constructor
    · intro hnone
      show (match names.lookup ("en") with
        | some nm => nm
        | none => "") = ""
      rw [hnone]
    · intro nm hsome
      show (match names.lookup ("en") with
        | some nm => nm
        | none => "") = nm
      rw [hsome]

/-- C5 witness: the theorem applied at concrete data, plus a concrete
evaluation of the filter (the drone type in group 18 / category 7 is dropped,
the frigate in group 25 / category 6 is kept). -/
theorem transformShip_spec_witness :
    getLocalizedName [] ("en") = "" ∧
    getLocalizedName [("en", "Rifter")] ("en") = "Rifter" ∧
    (transformShipTypes
        [(587, mkSDEType 25 [("en", "Rifter")]), (2456, mkSDEType 18 [("en", "Hobgoblin")])]
        [(25, mkSDEGroup 6 [("en", "Frigate")]), (18, mkSDEGroup 7 [("en", "Drone")])]).map
      (fun t => t.typeID) = [587] := by
  refine ⟨?_, ?_, ?_⟩
  · exact ((transformShip_spec [] []).2.2.2.2.2.2 []).1 rfl
  · exact ((transformShip_spec [] []).2.2.2.2.2.2 [("en", "Rifter")]).2 "Rifter" rfl
  · decide

/-! ### Facts about the jump enricher -/

theorem systemLookup_foldl_aux {φ : Type} (systems : List (SolarSystemG φ))
    (m : ℤ → Option (SolarSystemG φ)) (id : ℤ) (s : SolarSystemG φ) :
    (systems.foldl (fun m sys => fun id => if id = sys.solarSystemID then some sys else m id) m) id
        = some s →
    (s ∈ systems ∧ s.solarSystemID = id) ∨ m id = some s := by
  induction systems generalizing m with
  | nil => intro h; exact Or.inr h
  | cons sys rest ih =>
    intro h
    rcases ih _ h with hcase | hcase
    · exact Or.inl ⟨List.mem_cons_of_mem sys hcase.1, hcase.2⟩
    · have hcase2 : (if id = sys.solarSystemID then some sys else m id) = some s := hcase
      by_cases hid : id = sys.solarSystemID
      · rw [if_pos hid] at hcase2
        have : sys = s := by simpa using hcase2
        exact Or.inl ⟨this ▸ List.mem_cons_self sys rest, by rw [← this, hid]⟩
      · rw [if_neg hid] at hcase2
        exact Or.inr hcase2

theorem systemLookup_result {φ : Type} (systems : List (SolarSystemG φ)) (id : ℤ)
    (s : SolarSystemG φ) :
    systemLookup systems id = some s → s ∈ systems ∧ s.solarSystemID = id := by
  intro h
  rcases systemLookup_foldl_aux systems _ id s h with hcase | hcase
  · exact hcase
  · simp at hcase

theorem enrichJump_fields {φ : Type} (lookup : ℤ → Option (SolarSystemG φ)) (jump : SystemJump) :
    (enrichJump lookup jump).fromSolarSystemID = jump.fromSolarSystemID ∧
    (enrichJump lookup jump).toSolarSystemID = jump.toSolarSystemID ∧
    (∀ s, lookup jump.fromSolarSystemID = some s →
      (enrichJump lookup jump).fromRegionID = s.regionID ∧
      (enrichJump lookup jump).fromConstellationID = s.constellationID) ∧
    (lookup jump.fromSolarSystemID = none →
      (enrichJump lookup jump).fromRegionID = 0 ∧
      (enrichJump lookup jump).fromConstellationID = 0) ∧
    (∀ s, lookup jump.toSolarSystemID = some s →
      (enrichJump lookup jump).toRegionID = s.regionID ∧
      (enrichJump lookup jump).toConstellationID = s.constellationID) ∧
    (lookup jump.toSolarSystemID = none →
      (enrichJump lookup jump).toRegionID = 0 ∧
      (enrichJump lookup jump).toConstellationID = 0) := by
  rcases hF : lookup jump.fromSolarSystemID with _ | sF <;>
    rcases hT : lookup jump.toSolarSystemID with _ | sT <;>
      simp [enrichJump, hF, hT]

/-- C6: jump enrichment produces exactly one output record per input record
(duplicates included) — the output is a permutation (by the final sort) of the
one-to-one enriched list — each record keeps its `From`/`To` system IDs; a
found endpoint contributes its `RegionID`/`ConstellationID`; a missing
endpoint leaves the corresponding fields at zero; and the operation is total
(never fails).  A successful lookup always returns a member of the system
collection carrying the queried ID. -/
theorem transformSystemJumps_spec (jumps : List SystemJump) (systems : List SolarSystem) :
    List.Perm (transformSystemJumps jumps systems)
      (jumps.map (enrichJump (systemLookup systems))) ∧
    (transformSystemJumps jumps systems).length = jumps.length ∧
    (∀ jump : SystemJump,
      (enrichJump (systemLookup systems) jump).fromSolarSystemID = jump.fromSolarSystemID ∧
      (enrichJump (systemLookup systems) jump).toSolarSystemID = jump.toSolarSystemID ∧
      (∀ s, systemLookup systems jump.fromSolarSystemID = some s →
        (enrichJump (systemLookup systems) jump).fromRegionID = s.regionID ∧
        (enrichJump (systemLookup systems) jump).fromConstellationID = s.constellationID) ∧
      (systemLookup systems jump.fromSolarSystemID = none →
        (enrichJump (systemLookup systems) jump).fromRegionID = 0 ∧
        (enrichJump (systemLookup systems) jump).fromConstellationID = 0) ∧
      (∀ s, systemLookup systems jump.toSolarSystemID = some s →
        (enrichJump (systemLookup systems) jump).toRegionID = s.regionID ∧
        (enrichJump (systemLookup systems) jump).toConstellationID = s.constellationID) ∧
      (systemLookup systems jump.toSolarSystemID = none →
        (enrichJump (systemLookup systems) jump).toRegionID = 0 ∧
        (enrichJump (systemLookup systems) jump).toConstellationID = 0)) ∧
    (∀ id s, systemLookup systems id = some s → s ∈ systems ∧ s.solarSystemID = id) := by
  have hperm := sortSlice_perm jumpLess (jumps.map (enrichJump (systemLookup systems)))
  refine ⟨hperm, ?_, fun jump => enrichJump_fields _ jump, fun id s => systemLookup_result systems id s⟩
  have hlen : (transformSystemJumps jumps systems).length
      = (jumps.map (enrichJump (systemLookup systems))).length := hperm.length_eq
  rw [hlen, List.length_map]

/-- C6 witness: the theorem applied to a two-jump list over one known system
(ID 101) and one jump endpoint that is unknown (ID 999). -/
theorem transformSystemJumps_spec_witness :
    (transformSystemJumps [mkJump 101 999, mkJump 101 999]
        [mkSystem 7 8 101 0 0 0 0 (none : Option ℤ)]).length = 2 ∧
    (enrichJump (systemLookup [mkSystem 7 8 101 0 0 0 0 (none : Option ℤ)])
        (mkJump 101 999)).fromRegionID = 7 ∧
    (enrichJump (systemLookup [mkSystem 7 8 101 0 0 0 0 (none : Option ℤ)])
        (mkJump 101 999)).toRegionID = 0 := by
  have h := transformSystemJumps_spec [mkJump 101 999, mkJump 101 999]
    [mkSystem 7 8 101 0 0 0 0 (none : Option ℤ)]
  refine ⟨h.2.1, ?_, ?_⟩
  · have h3 := (h.2.2.1 (mkJump 101 999)).2.2.1
      (mkSystem 7 8 101 0 0 0 0 (none : Option ℤ)) (by decide)
    rw [h3.1]
    rfl
  · have h4 := (h.2.2.1 (mkJump 101 999)).2.2.2.2.2 (by decide)
    exact h4.1

/-! ### Facts about the deterministic sorter -/

theorem jumpLess_false_iff (a b : SystemJump) :
    jumpLess b a = false ↔
      (a.fromSolarSystemID < b.fromSolarSystemID ∨
        (a.fromSolarSystemID = b.fromSolarSystemID ∧ a.toSolarSystemID ≤ b.toSolarSystemID)) := by
  unfold jumpLess
  split_ifs with h
  · simp only [decide_eq_false_iff_not]
    omega
  · simp only [decide_eq_false_iff_not]
    omega

theorem sortSlice_jumpLess_pairwise (l : List SystemJump) :
    (sortSlice jumpLess l).Pairwise (fun a b =>
      a.fromSolarSystemID < b.fromSolarSystemID ∨
        (a.fromSolarSystemID = b.fromSolarSystemID ∧ a.toSolarSystemID ≤ b.toSolarSystemID)) := by
  have h := sortSlice_pairwise jumpLess
    (by
      intro a b hab
      rw [jumpLess_false_iff]
      have hnf : ¬ (jumpLess a b = false) := by simp [hab]
      rw [jumpLess_false_iff] at hnf
      push_neg at hnf
      omega)
    (by
      intro a b c h1 h2
      rw [jumpLess_false_iff] at h1 h2 ⊢
      omega) l
  exact h.imp (fun hxy => (jumpLess_false_iff _ _).mp hxy)

theorem calcRegionBounds_key {φ ψ : Type} (systems : List (SolarSystemG ψ)) (r : RegionG φ) :
    ((fun r =>
      let sysList := systems.filter (fun sys => decide (sys.regionID = r.regionID))
      if sysList.isEmpty then r
      else
        let b := calculateBounds sysList
        { r with xMin := b.minX, xMax := b.maxX, yMin := b.minY, yMax := b.maxY,
                 zMin := b.minZ, zMax := b.maxZ }) r).regionID = r.regionID := by
  dsimp only
  split
  · rfl
  · rfl

theorem calcConstellationBounds_key {φ ψ : Type} (systems : List (SolarSystemG ψ))
    (c : ConstellationG φ) :
    ((fun c =>
      let sysList := systems.filter (fun sys => decide (sys.constellationID = c.constellationID))
      if sysList.isEmpty then c
      else
        let b := calculateBounds sysList
        { c with xMin := b.minX, xMax := b.maxX, yMin := b.minY, yMax := b.maxY,
                 zMin := b.minZ, zMax := b.maxZ }) c).constellationID = c.constellationID := by
  dsimp only
  split
  · rfl
  · rfl

theorem inheritFactionIDs_key (regions : List Region) (s : SolarSystem) :
    ((fun sys =>
      if sys.factionID = none then
        match regionFactionIDs regions sys.regionID with
        | some (some v) => { sys with factionID := some v }
        | _ => sys
      else sys) s).solarSystemID = s.solarSystemID ∧
    ((fun sys =>
      if sys.factionID = none then
        match regionFactionIDs regions sys.regionID with
        | some (some v) => { sys with factionID := some v }
        | _ => sys
      else sys) s).security = s.security := by
  dsimp only
  split_ifs with h
  · rcases regionFactionIDs regions s.regionID with _ | (_ | v)
    · exact ⟨rfl, rfl⟩
    · exact ⟨rfl, rfl⟩
    · exact ⟨rfl, rfl⟩
  · exact ⟨rfl, rfl⟩

/-- C7: every collection produced by `Transform` is sorted ascending by its
defined key — Regions by `RegionID`, Constellations by `ConstellationID`,
SolarSystems by `SolarSystemID`, InvTypes by `TypeID`, InvGroups by `GroupID`,
WormholeClasses by `LocationID`, NPCStations by `StationID`, and SystemJumps
lexicographically by `(FromSolarSystemID, ToSolarSystemID)` — for every input,
hence regardless of the iteration order of the input maps. -/
theorem transform_sorted (pr : ParseResult) :
    ((Transform pr).Universe.regions).Pairwise (fun a b => a.regionID ≤ b.regionID) ∧
    ((Transform pr).Universe.constellations).Pairwise
      (fun a b => a.constellationID ≤ b.constellationID) ∧
    ((Transform pr).Universe.solarSystems).Pairwise
      (fun a b => a.solarSystemID ≤ b.solarSystemID) ∧
    ((Transform pr).invTypes).Pairwise (fun a b => a.typeID ≤ b.typeID) ∧
    ((Transform pr).invGroups).Pairwise (fun a b => a.groupID ≤ b.groupID) ∧
    ((Transform pr).wormholeClasses).Pairwise (fun a b => a.locationID ≤ b.locationID) ∧
    ((Transform pr).npcStations).Pairwise (fun a b => a.stationID ≤ b.stationID) ∧
    ((Transform pr).systemJumps).Pairwise (fun a b =>
      a.fromSolarSystemID < b.fromSolarSystemID ∨
        (a.fromSolarSystemID = b.fromSolarSystemID ∧ a.toSolarSystemID ≤ b.toSolarSystemID)) := by
  refine ⟨?_, ?_, ?_, ?_, ?_, ?_, ?_, ?_⟩
  · show (CalculateRegionBounds (sortRegions pr.regions) _).Pairwise _
    unfold CalculateRegionBounds
    refine List.Pairwise.map _ ?_ (sortSlice_key_pairwise (fun r : Region => r.regionID) pr.regions)
    intro a b hab
    rw [calcRegionBounds_key, calcRegionBounds_key]
    exact hab
  · show (CalculateConstellationBounds (sortConstellations pr.constellations) _).Pairwise _
    unfold CalculateConstellationBounds
    refine List.Pairwise.map _ ?_
      (sortSlice_key_pairwise (fun c : Constellation => c.constellationID) pr.constellations)
    intro a b hab
    rw [calcConstellationBounds_key, calcConstellationBounds_key]
    exact hab
  · show (InheritFactionIDs (transformSolarSystems pr.solarSystems) _).Pairwise _
    unfold InheritFactionIDs
    refine List.Pairwise.map _ ?_
      (sortSlice_key_pairwise (fun s : SolarSystem => s.solarSystemID) pr.solarSystems)
    intro a b hab
    rw [(inheritFactionIDs_key _ a).1, (inheritFactionIDs_key _ b).1]
    exact hab
  · exact sortSlice_key_pairwise (fun t : InvType => t.typeID) _
  · exact sortSlice_key_pairwise (fun g : InvGroup => g.groupID) _
  · exact sortSlice_key_pairwise (fun w : WormholeClassLocation => w.locationID) _
  · exact sortSlice_key_pairwise (fun n : NPCStation => n.stationID) _
  · exact sortSlice_jumpLess_pairwise _

/-! ### Facts about the output validator -/

/-- C8: `Validate` reports `IsValid` exactly when the error list is empty; an
empty Regions / Constellations / SolarSystems collection contributes an error
string; when all three are non-empty the error list is empty; every one of
the eight collection counts, when below its fixed minimum threshold, appends
its warning string (and, errors being governed solely by the three emptiness
checks, only a warning); and an empty SolarSystems collection forces
`IsValid = false` with a non-empty error list. -/
theorem validate_spec (data : ConvertedData) :
    ((Validate data).IsValid = true ↔ (Validate data).errors.length = 0) ∧
    (data.Universe.solarSystems.length = 0 →
      "No solar systems found" ∈ (Validate data).errors) ∧
    (data.Universe.regions.length = 0 →
      "No regions found" ∈ (Validate data).errors) ∧
    (data.Universe.constellations.length = 0 →
      "No constellations found" ∈ (Validate data).errors) ∧
    (data.Universe.solarSystems.length ≠ 0 → data.Universe.regions.length ≠ 0 →
      data.Universe.constellations.length ≠ 0 → (Validate data).errors = []) ∧
    (data.Universe.solarSystems.length < minSolarSystems →
      s!"Solar system count ({data.Universe.solarSystems.length}) is below expected minimum ({minSolarSystems})"
        ∈ (Validate data).warnings) ∧
    (data.Universe.regions.length < minRegions →
      s!"Region count ({data.Universe.regions.length}) is below expected minimum ({minRegions})"
        ∈ (Validate data).warnings) ∧
    (data.Universe.constellations.length < minConstellations →
      s!"Constellation count ({data.Universe.constellations.length}) is below expected minimum ({minConstellations})"
        ∈ (Validate data).warnings) ∧
    (data.invTypes.length < minShipTypes →
      s!"Ship type count ({data.invTypes.length}) is below expected minimum ({minShipTypes})"
        ∈ (Validate data).warnings) ∧
    (data.invGroups.length < minShipGroups →
      s!"Ship group count ({data.invGroups.length}) is below expected minimum ({minShipGroups})"
        ∈ (Validate data).warnings) ∧
    (data.systemJumps.length < minSystemJumps →
      s!"System jump count ({data.systemJumps.length}) is below expected minimum ({minSystemJumps})"
        ∈ (Validate data).warnings) ∧
    (data.wormholeClasses.length < minWormholeClasses →
      s!"Wormhole class count ({data.wormholeClasses.length}) is below expected minimum ({minWormholeClasses})"
        ∈ (Validate data).warnings) ∧
    (data.npcStations.length < minNPCStations →
      s!"NPC station count ({data.npcStations.length}) is below expected minimum ({minNPCStations})"
        ∈ (Validate data).warnings) ∧
    (data.Universe.solarSystems = [] →
      (Validate data).IsValid = false ∧ (Validate data).errors ≠ []) := by
  have herr : (Validate data).errors =
      ((if data.Universe.solarSystems.length = 0 then [("No solar systems found" : String)] else []) ++
       (if data.Universe.regions.length = 0 then [("No regions found" : String)] else [])) ++
      (if data.Universe.constellations.length = 0 then [("No constellations found" : String)] else []) := rfl
  have hvalid : (Validate data).IsValid = ((Validate data).errors.length == 0) := rfl
  refine ⟨?_, ?_, ?_, ?_, ?_, ?_, ?_, ?_, ?_, ?_, ?_, ?_, ?_, ?_⟩
  · rw [hvalid]
    simp [beq_iff_eq]
  · intro h
    rw [herr, if_pos h]
    exact List.mem_append_left _ (List.mem_append_left _ (List.mem_singleton.mpr rfl))
  · intro h
    rw [herr, if_pos h]
    exact List.mem_append_left _ (List.mem_append_right _ (List.mem_singleton.mpr rfl))
  · intro h
    rw [herr, if_pos h]
    exact List.mem_append_right _ (List.mem_singleton.mpr rfl)
  · intro h1 h2 h3
    rw [herr, if_neg h1, if_neg h2, if_neg h3]
    rfl
  · intro h
    have hwarn : s!"Solar system count ({data.Universe.solarSystems.length}) is below expected minimum ({minSolarSystems})"
        ∈ (if data.Universe.solarSystems.length < minSolarSystems then
            [s!"Solar system count ({data.Universe.solarSystems.length}) is below expected minimum ({minSolarSystems})"]
          else []) := by
      rw [if_pos h]
      exact List.mem_singleton.mpr rfl
    exact List.mem_append_left _ (List.mem_append_left _ (List.mem_append_left _ (List.mem_append_left _ (List.mem_append_left _ (List.mem_append_left _ (List.mem_append_left _ (hwarn)))))))
  · intro h
    have hwarn : s!"Region count ({data.Universe.regions.length}) is below expected minimum ({minRegions})"
        ∈ (if data.Universe.regions.length < minRegions then
            [s!"Region count ({data.Universe.regions.length}) is below expected minimum ({minRegions})"]
          else []) := by
      rw [if_pos h]
      exact List.mem_singleton.mpr rfl
    exact List.mem_append_left _ (List.mem_append_left _ (List.mem_append_left _ (List.mem_append_left _ (List.mem_append_left _ (List.mem_append_left _ (List.mem_append_right _ hwarn))))))
  · intro h
    have hwarn : s!"Constellation count ({data.Universe.constellations.length}) is below expected minimum ({minConstellations})"
        ∈ (if data.Universe.constellations.length < minConstellations then
            [s!"Constellation count ({data.Universe.constellations.length}) is below expected minimum ({minConstellations})"]
          else []) := by
      rw [if_pos h]
      exact List.mem_singleton.mpr rfl
    exact List.mem_append_left _ (List.mem_append_left _ (List.mem_append_left _ (List.mem_append_left _ (List.mem_append_left _ (List.mem_append_right _ hwarn)))))
  · intro h
    have hwarn : s!"Ship type count ({data.invTypes.length}) is below expected minimum ({minShipTypes})"
        ∈ (if data.invTypes.length < minShipTypes then
            [s!"Ship type count ({data.invTypes.length}) is below expected minimum ({minShipTypes})"]
          else []) := by
      rw [if_pos h]
      exact List.mem_singleton.mpr rfl
    exact List.mem_append_left _ (List.mem_append_left _ (List.mem_append_left _ (List.mem_append_left _ (List.mem_append_right _ hwarn))))
  · intro h
    have hwarn : s!"Ship group count ({data.invGroups.length}) is below expected minimum ({minShipGroups})"
        ∈ (if data.invGroups.length < minShipGroups then
            [s!"Ship group count ({data.invGroups.length}) is below expected minimum ({minShipGroups})"]
          else []) := by
      rw [if_pos h]
      exact List.mem_singleton.mpr rfl
    exact List.mem_append_left _ (List.mem_append_left _ (List.mem_append_left _ (List.mem_append_right _ hwarn)))
  · intro h
    have hwarn : s!"System jump count ({data.systemJumps.length}) is below expected minimum ({minSystemJumps})"
        ∈ (if data.systemJumps.length < minSystemJumps then
            [s!"System jump count ({data.systemJumps.length}) is below expected minimum ({minSystemJumps})"]
          else []) := by
      rw [if_pos h]
      exact List.mem_singleton.mpr rfl
    exact List.mem_append_left _ (List.mem_append_left _ (List.mem_append_right _ hwarn))
  · intro h
    have hwarn : s!"Wormhole class count ({data.wormholeClasses.length}) is below expected minimum ({minWormholeClasses})"
        ∈ (if data.wormholeClasses.length < minWormholeClasses then
            [s!"Wormhole class count ({data.wormholeClasses.length}) is below expected minimum ({minWormholeClasses})"]
          else []) := by
      rw [if_pos h]
      exact List.mem_singleton.mpr rfl
    exact List.mem_append_left _ (List.mem_append_right _ hwarn)
  · intro h
    have hwarn : s!"NPC station count ({data.npcStations.length}) is below expected minimum ({minNPCStations})"
        ∈ (if data.npcStations.length < minNPCStations then
            [s!"NPC station count ({data.npcStations.length}) is below expected minimum ({minNPCStations})"]
          else []) := by
      rw [if_pos h]
      exact List.mem_singleton.mpr rfl
    exact List.mem_append_right _ hwarn
  · intro h
    have h0 : data.Universe.solarSystems.length = 0 := by rw [h]; rfl
    constructor
    · rw [hvalid, herr, if_pos h0]
      rfl
    · rw [herr, if_pos h0]
      simp

/-- C8 witness: the theorem applied to fully empty converted data; the empty
collections trigger the error strings and the below-threshold warnings. -/
theorem validate_spec_witness :
    (Validate emptyConverted).IsValid = false ∧
    "No solar systems found" ∈ (Validate emptyConverted).errors ∧
    (Validate emptyConverted).errors ≠ [] ∧
    s!"Region count ({emptyConverted.Universe.regions.length}) is below expected minimum ({minRegions})"
      ∈ (Validate emptyConverted).warnings ∧
    s!"NPC station count ({emptyConverted.npcStations.length}) is below expected minimum ({minNPCStations})"
      ∈ (Validate emptyConverted).warnings := by
  have h := validate_spec emptyConverted
  exact ⟨(h.2.2.2.2.2.2.2.2.2.2.2.2.2 rfl).1, h.2.1 rfl,
    (h.2.2.2.2.2.2.2.2.2.2.2.2.2 rfl).2,
    h.2.2.2.2.2.2.1 (by decide),
    h.2.2.2.2.2.2.2.2.2.2.2.2.1 (by decide)⟩

/-- C9: the pipeline emits the raw `Security` value unchanged — the multiset
of `(SolarSystemID, Security)` pairs of the transform's solar-system output is
exactly that of the input; neither sorting nor faction inheritance (the only
steps touching the records) overwrites `Security` with the classifier's
display value or anything else. -/
theorem transform_preserves_security (pr : ParseResult) :
    List.Perm (((Transform pr).Universe.solarSystems).map (fun s => (s.solarSystemID, s.security)))
      (pr.solarSystems.map (fun s => (s.solarSystemID, s.security))) := by
  show ((InheritFactionIDs (transformSolarSystems pr.solarSystems)
        (CalculateRegionBounds (sortRegions pr.regions) (transformSolarSystems pr.solarSystems))).map
      (fun s => (s.solarSystemID, s.security))).Perm
    (pr.solarSystems.map (fun s => (s.solarSystemID, s.security)))
  unfold InheritFactionIDs
  rw [List.map_map]
  rw [List.map_congr_left (fun s _ => by
    show (_, _) = ((s.solarSystemID : ℤ), s.security)
    rw [(inheritFactionIDs_key _ s).1, (inheritFactionIDs_key _ s).2])]
  exact (sortSlice_perm _ _).map _

/-! ### Frame property of the pipeline -/

theorem calcRegionBounds_faction {φ ψ : Type} (systems : List (SolarSystemG ψ)) (r : RegionG φ) :
    ((fun r =>
      let sysList := systems.filter (fun sys => decide (sys.regionID = r.regionID))
      if sysList.isEmpty then r
      else
        let b := calculateBounds sysList
        { r with xMin := b.minX, xMax := b.maxX, yMin := b.minY, yMax := b.maxY,
                 zMin := b.minZ, zMax := b.maxZ }) r).factionID = r.factionID := by
  dsimp only
  split
  · rfl
  · rfl

/-- C10: the universe part of `Transform`, at pointer level, never mutates
state reachable from its input.  All collection-level work is done on fresh
copies (visible in the definitions: every stage maps or sorts a new list), so
the only mutable state the input and the output share is the heap of `int64`
faction cells — and the pipeline only ever appends fresh cells: every
pre-existing cell is bit-for-bit preserved, so reading any input record's
faction pointer after `Transform` yields the value it had before.  The
remaining input collections (types, groups, jumps, stations) contain no
pointers at all and are only read. -/
theorem transformUniverseP_frame (regions : List RegionP) (constellations : List ConstellationP)
    (systems : List SolarSystemP) (h : Heap)
    (hreg : ∀ r ∈ regions, ∀ a, r.factionID = some a → a < h.cells.length)
    (hcon : ∀ c ∈ constellations, ∀ a, c.factionID = some a → a < h.cells.length)
    (hsys : ∀ s ∈ systems, ∀ a, s.factionID = some a → a < h.cells.length) :
    (TransformUniverseP regions constellations systems h).2.2.2.cells.take h.cells.length
        = h.cells ∧
    (∀ a, a < h.cells.length →
      (TransformUniverseP regions constellations systems h).2.2.2.read a = h.read a) ∧
    (∀ r ∈ regions, ∀ a, r.factionID = some a →
      (TransformUniverseP regions constellations systems h).2.2.2.read a = h.read a) ∧
    (∀ c ∈ constellations, ∀ a, c.factionID = some a →
      (TransformUniverseP regions constellations systems h).2.2.2.read a = h.read a) ∧
    (∀ s ∈ systems, ∀ a, s.factionID = some a →
      (TransformUniverseP regions constellations systems h).2.2.2.read a = h.read a) := by
  have hreg2 : ∀ r2 ∈ CalculateRegionBounds (sortRegions regions) (transformSolarSystems systems),
      ∀ a, r2.factionID = some a → a < h.cells.length := by
    intro r2 hr2 a ha
    unfold CalculateRegionBounds at hr2
    obtain ⟨r1, hr1, rfl⟩ := List.mem_map.mp hr2
    rw [calcRegionBounds_faction] at ha
    exact hreg r1 ((sortSlice_perm _ _).mem_iff.mp hr1) a ha
  have hrf2 : ∀ rid addr,
      regionFactionIDs (CalculateRegionBounds (sortRegions regions)
        (transformSolarSystems systems)) rid = some (some addr) →
      addr < h.cells.length := by
    intro rid addr hr
    obtain ⟨r2, hr2, -, hfac⟩ := regionFactionIDs_result _ rid (some addr) hr
    exact hreg2 r2 hr2 addr hfac
  have hheap : (TransformUniverseP regions constellations systems h).2.2.2
      = ⟨h.cells ++ inheritVals (regionFactionIDs (CalculateRegionBounds (sortRegions regions)
          (transformSolarSystems systems))) h.read (transformSolarSystems systems)⟩ := by
    show (InheritFactionIDsP (transformSolarSystems systems)
        (CalculateRegionBounds (sortRegions regions) (transformSolarSystems systems)) h).2 = _
    unfold InheritFactionIDsP
    rw [inheritLoop_eq _ (transformSolarSystems systems) h hrf2]
  refine ⟨?_, ?_, ?_, ?_, ?_⟩
  · rw [hheap]
    exact List.take_left _ _
  · intro a ha
    rw [hheap]
    exact getD_append_lt _ _ _ ha
  · intro r hr a hra
    rw [hheap]
    exact getD_append_lt _ _ _ (hreg r hr a hra)
  · intro c hc a hca
    rw [hheap]
    exact getD_append_lt _ _ _ (hcon c hc a hca)
  · intro s hs a hsa
    rw [hheap]
    exact getD_append_lt _ _ _ (hsys s hs a hsa)

/-- C10 witness: the theorem applied to one region owning cell 0 (value 42)
and one faction-less system; the pre-existing cell is preserved. -/
theorem transformUniverseP_frame_witness :
    (TransformUniverseP [mkRegion 1 (some 0 : Option Nat) 0 0] []
        [mkSystem 1 1 101 0 0 0 0 (none : Option Nat)] ⟨[42]⟩).2.2.2.cells.take 1 = [42] ∧
    (TransformUniverseP [mkRegion 1 (some 0 : Option Nat) 0 0] []
        [mkSystem 1 1 101 0 0 0 0 (none : Option Nat)] ⟨[42]⟩).2.2.2.read 0 = 42 := by
  have h := transformUniverseP_frame [mkRegion 1 (some 0 : Option Nat) 0 0] []
    [mkSystem 1 1 101 0 0 0 0 (none : Option Nat)] ⟨[42]⟩
    (by
      intro r hr a ha
      rcases List.mem_singleton.mp hr with rfl
      have ha2 : (some 0 : Option Nat) = some a := ha
      injection ha2 with ha3
      rw [← ha3]
      decide)
    (by intro c hc; simp at hc)
    (by
      intro s hs a ha
      rcases List.mem_singleton.mp hs with rfl
      exact Option.noConfusion (show (none : Option Nat) = some a from ha))
  refine ⟨h.1, ?_⟩
  rw [h.2.1 0 (by decide)]
  rfl
